import Mathlib

/-!
Verification of `src/ArcExporter.py` (ArcExporter repository).

The Python program is shallowly embedded: JSON values become the inductive
type `JVal`; Python runtime errors (TypeError, KeyError, AttributeError,
unbounded recursion) become an explicit `Except PyErr` monad; the Python
dictionary `items_by_id` becomes an insertion-ordered association list with
Python-dict update semantics.  Every definition in the "source embedding"
section mirrors a specific function or loop of `src/ArcExporter.py`,
referenced by line numbers in its doc comment.  The wall-clock timestamp
read by `export_bookmarks` (line 158) is passed in as an explicit `now`
argument, which is the standard embedding of a clock read.
-/

namespace Arc

/-- JSON values, as produced by `json.load` (line 44).  Numbers are modelled
as integers; no claim concerns floating point.  Object fields are kept in
insertion order with unique keys, as `json.load` produces. -/
inductive JVal where
  | null
  | bool (b : Bool)
  | num (n : Int)
  | str (s : String)
  | arr (xs : List JVal)
  | obj (fields : List (String × JVal))
  deriving Repr

/-- Python runtime errors that the source can raise, plus `outOfFuel`,
standing for the unbounded recursion / RecursionError that the source's
`get_all_folders_flat` can hit on cyclic input (spec section 4.3). -/
inductive PyErr where
  | typeError
  | keyError
  | indexError
  | attributeError
  | outOfFuel
  deriving Repr, DecidableEq

mutual
/-- Python `==` on JSON-derived values: structural equality, with the
Python cross-equality `True == 1`, `False == 0` between booleans and
numbers. -/
def jeq : JVal → JVal → Bool
  | .null, .null => true
  | .bool a, .bool b => a == b
  | .bool a, .num b => (if a then (1 : Int) else 0) == b
  | .num a, .bool b => a == (if b then (1 : Int) else 0)
  | .num a, .num b => a == b
  | .str a, .str b => a == b
  | .arr a, .arr b => jeqList a b
  | .obj a, .obj b => jeqFields a b
  | _, _ => false

/-- Python `==` on lists, elementwise. -/
def jeqList : List JVal → List JVal → Bool
  | [], [] => true
  | a :: as, b :: bs => jeq a b && jeqList as bs
  | _, _ => false

/-- Python `==` on dicts (JSON objects have string keys in fixed order;
order-sensitive comparison is never exercised by the source, which only
compares scalars and the values stored in `containerIDs`/`parentID`). -/
def jeqFields : List (String × JVal) → List (String × JVal) → Bool
  | [], [] => true
  | (ka, va) :: as, (kb, vb) :: bs => ka == kb && jeq va vb && jeqFields as bs
  | _, _ => false
end

/-- Python truthiness (`if x:`): `None`, `False`, `0`, `""`, `[]`, `{}`
are falsy, everything else truthy. -/
def pyTruthy : JVal → Bool
  | .null => false
  | .bool b => b
  | .num n => n != 0
  | .str s => s != ""
  | .arr xs => !xs.isEmpty
  | .obj fs => !fs.isEmpty

/-- Python `isinstance(x, dict)`. -/
def isDict : JVal → Bool
  | .obj _ => true
  | _ => false

/-- Whether a JSON-derived value is hashable in Python (lists and dicts are
not and raise TypeError when used as dictionary keys). -/
def isHashable : JVal → Bool
  | .arr _ => false
  | .obj _ => false
  | _ => true

/-- Substring test on strings, used by Python `key in s` when `s` is a
string. -/
def strContains (hay needle : String) : Bool :=
  (List.range (hay.toList.length + 1)).any
    (fun i => needle.toList.isPrefixOf (hay.toList.drop i))

/-- Python `key in x` for a string literal `key`: key membership for dicts,
substring for strings, element membership for lists, TypeError otherwise
(e.g. `'list' in None` raises). -/
def pyIn (key : String) : JVal → Except PyErr Bool
  | .obj fs => .ok (fs.any (fun p => p.1 == key))
  | .str s => .ok (strContains s key)
  | .arr xs => .ok (xs.any (fun v => jeq v (.str key)))
  | _ => .error .typeError

/-- Python `len(x)`. -/
def pyLen : JVal → Except PyErr Nat
  | .str s => .ok s.length
  | .arr xs => .ok xs.length
  | .obj fs => .ok fs.length
  | _ => .error .typeError

/-- Python iteration (`for v in x`): list elements, string characters,
dict keys; TypeError on non-iterables. -/
def pyIter : JVal → Except PyErr (List JVal)
  | .arr xs => .ok xs
  | .str s => .ok (s.toList.map (fun c => .str (String.mk [c])))
  | .obj fs => .ok (fs.map (fun p => .str p.1))
  | _ => .error .typeError

/-- Python integer subscription `x[i]` (supports the negative index used at
`containers[-1]`, line 124); IndexError out of range, KeyError for an
integer key on a JSON object (string keys only), TypeError otherwise. -/
def pyIndex (v : JVal) (i : Int) : Except PyErr JVal :=
  match v with
  | .arr xs =>
      let j : Int := if i < 0 then i + xs.length else i
      if h : 0 ≤ j ∧ j < (xs.length : Int) then
        .ok (xs.get ⟨j.toNat, by omega⟩)
      else .error .indexError
  | .str s =>
      let cs := s.toList
      let j : Int := if i < 0 then i + cs.length else i
      if h : 0 ≤ j ∧ j < (cs.length : Int) then
        .ok (.str (String.mk [cs.get ⟨j.toNat, by omega⟩]))
      else .error .indexError
  | .obj _ => .error .keyError
  | _ => .error .typeError

/-- Python string subscription `x['key']`: KeyError for a missing dict key,
TypeError when `x` is not a dict (`'abc'['key']`, `[1]['key']`, `5['key']`
all raise TypeError). -/
def pyGetKey (v : JVal) (k : String) : Except PyErr JVal :=
  match v with
  | .obj fs =>
      match fs.find? (fun p => p.1 == k) with
      | some p => .ok p.2
      | none => .error .keyError
  | _ => .error .typeError

/-- Python `x.get(key, default)`: only dicts have `.get`; anything else
raises AttributeError. -/
def pyDictGet (v : JVal) (k : String) (dflt : JVal) : Except PyErr JVal :=
  match v with
  | .obj fs =>
      match fs.find? (fun p => p.1 == k) with
      | some p => .ok p.2
      | none => .ok dflt
  | _ => .error .attributeError

/-- The Python dictionary `items_by_id`: an insertion-ordered association
list whose keys are compared with Python `==` (as a hash table does). -/
abbrev PyDict := List (JVal × JVal)

/-- Lookup in `items_by_id` (Python `d[k]` / `k in d` share this search). -/
def dictFind (d : PyDict) (k : JVal) : Option JVal :=
  (List.find? (fun p => jeq p.1 k) d).map Prod.snd

/-- Python `d[k] = v` on `items_by_id`: replace in place if the key is
already present (keeping the original key and position), else append. -/
def dictSet (d : PyDict) (k v : JVal) : PyDict :=
  if (List.find? (fun p => jeq p.1 k) d).isSome then
    List.map (fun p => if jeq p.1 k then (p.1, v) else p) d
  else d ++ [(k, v)]

/-- Python `k in d` for the dictionary `items_by_id`: hashes the key first,
so an unhashable key (list/dict) raises TypeError. -/
def pyDictHas (d : PyDict) (k : JVal) : Except PyErr Bool :=
  if isHashable k then .ok (dictFind d k).isSome else .error .typeError

/-- String form `str(x)` as used by `escape_html_text` (line 60).  For
strings it is the identity; containers use a simplified repr (Python's
quote-escaping inside repr of nested strings is not reproduced; no claim
exercises it, since titles and URLs are strings). -/
def pyStr : JVal → String
  | .null => "None"
  | .bool b => if b then "True" else "False"
  | .num n => toString n
  | .str s => s
  | .arr _ => "<list>"
  | .obj _ => "<dict>"

/-- The character-for-character replacement performed by `html.escape`
with its default `quote=True`. -/
def htmlEscapeChar (c : Char) : String :=
  if c = '&' then "&amp;"
  else if c = '<' then "&lt;"
  else if c = '>' then "&gt;"
  else if c = Char.ofNat 34 then "&quot;"
  else if c = Char.ofNat 39 then "&#x27;"
  else String.mk [c]

/-- `html.escape` (Python replaces `&` first, then the other characters, so
the result equals this single character-wise pass). -/
def htmlEscape (s : String) : String :=
  String.join (s.toList.map htmlEscapeChar)

/-- Source lines 58-60: `escape_html_text(text)` returns
`html.escape(str(text)) if text else ''`. -/
def escape_html_text (t : JVal) : String :=
  if pyTruthy t then htmlEscape (pyStr t) else ""

/-- Python `'\n'.join(lines)` (line 221). -/
def join_lines : List String → String
  | [] => ""
  | [l] => l
  | l :: l2 :: rest => l ++ "\n" ++ join_lines (l2 :: rest)

/-- Classification result of `get_item_type`: the source returns the strings
`'folder'` / `'tab'` or `None`; `none` is the `unknown` class. -/
inductive ItemType where
  | folder
  | tab
  deriving Repr, DecidableEq

/-- Source lines 47-55, `get_item_type(item)`: `None` when `'data' not in
item`; `'folder'` when `'list' in item['data']`; `'tab'` when `'tab' in
item['data']`; `None` otherwise.  The `in` tests use Python semantics
(`pyIn`), so a non-container `data` value raises TypeError. -/
def get_item_type (item : JVal) : Except PyErr (Option ItemType) := do
  let hasData ← pyIn "data" item
  if !hasData then return none
  else do
    let d ← pyGetKey item "data"
    let hasList ← pyIn "list" d
    if hasList then return some ItemType.folder
    else do
      let hasTab ← pyIn "tab" d
      if hasTab then return some ItemType.tab
      else return none

/-- One entry of a folder's `tabs` list / a standalone tab: the dict
`{'title': ..., 'url': ...}` built at lines 81 and 199. -/
structure Tab where
  title : JVal
  url : JVal
  deriving Repr

/-- The dict `{'title': ..., 'tabs': [...]}` returned at lines 83-86. -/
structure FlatFolder where
  title : JVal
  tabs : List Tab
  deriving Repr

/-- Source lines 73-81: the `for child_id in item.get('childrenIds', [])`
loop of `get_folder_with_direct_tabs`, collecting direct tab children.
Note the source computes `url` and `title` before testing `if url:`, so an
error while resolving the title propagates even for an empty URL. -/
def direct_tabs_loop : List JVal → PyDict → Except PyErr (List Tab)
  | [], _ => .ok []
  | cid :: rest, items_by_id => do
      let present ← pyDictHas items_by_id cid
      if present then do
        let child := (dictFind items_by_id cid).getD .null
        let ty ← get_item_type child
        if ty = some ItemType.tab then do
          let d ← pyGetKey child "data"
          let tab_data ← pyGetKey d "tab"
          let url ← pyDictGet tab_data "savedURL" (.str "")
          let t1 ← pyDictGet child "title" .null
          let title ←
            if pyTruthy t1 then pure t1
            else do
              let t2 ← pyDictGet tab_data "savedTitle" (.str "")
              pure (if pyTruthy t2 then t2 else .str "Untitled")
          let restTabs ← direct_tabs_loop rest items_by_id
          if pyTruthy url then return (⟨title, url⟩ :: restTabs)
          else return restTabs
        else direct_tabs_loop rest items_by_id
      else direct_tabs_loop rest items_by_id

/-- Source lines 63-86, `get_folder_with_direct_tabs(item_id, items_by_id)`:
`None` for an id absent from the index or not classified as a folder, else
a `FlatFolder` whose title defaults to `"Untitled Folder"`. -/
def get_folder_with_direct_tabs (item_id : JVal) (items_by_id : PyDict) :
    Except PyErr (Option FlatFolder) := do
  let present ← pyDictHas items_by_id item_id
  if !present then return none
  else do
    let item := (dictFind items_by_id item_id).getD .null
    let ty ← get_item_type item
    if ty ≠ some ItemType.folder then return none
    else do
      let children ← pyDictGet item "childrenIds" (.arr [])
      let childList ← pyIter children
      let tabs ← direct_tabs_loop childList items_by_id
      let t ← pyDictGet item "title" .null
      return some ⟨if pyTruthy t then t else .str "Untitled Folder", tabs⟩

/-- Source lines 107-111: the `for child_id in item.get('childrenIds', [])`
loop of `get_all_folders_flat`, recursing (via `g`) into children that
classify as folders, threading the mutable `collected` list. -/
def subfolders_loop (g : JVal → List FlatFolder → Except PyErr (List FlatFolder)) :
    List JVal → PyDict → List FlatFolder → Except PyErr (List FlatFolder)
  | [], _, collected => .ok collected
  | cid :: rest, items_by_id, collected => do
      let present ← pyDictHas items_by_id cid
      if present then do
        let child := (dictFind items_by_id cid).getD .null
        let ty ← get_item_type child
        if ty = some ItemType.folder then do
          let collected2 ← g cid collected
          subfolders_loop g rest items_by_id collected2
        else subfolders_loop g rest items_by_id collected
      else subfolders_loop g rest items_by_id collected

/-- Source lines 89-113, `get_all_folders_flat(item_id, items_by_id,
collected)`: appends this folder to `collected` when it has tabs (`if
folder and folder['tabs']:`, line 103 — the returned dict is always truthy,
the tabs list is truthy iff non-empty), then recurses into folder children.
The Python recursion is unguarded; `fuel` bounds it, with `outOfFuel`
standing for non-termination/RecursionError on cyclic input. -/
def get_all_folders_flat : Nat → JVal → PyDict → List FlatFolder → Except PyErr (List FlatFolder)
  | 0, _, _, _ => .error .outOfFuel
  | fuel + 1, item_id, items_by_id, collected => do
      let present ← pyDictHas items_by_id item_id
      if !present then return collected
      else do
        let item := (dictFind items_by_id item_id).getD .null
        let ty ← get_item_type item
        if ty ≠ some ItemType.folder then return collected
        else do
          let folderOpt ← get_folder_with_direct_tabs item_id items_by_id
          let collected2 :=
            match folderOpt with
            | some f => if !f.tabs.isEmpty then collected ++ [f] else collected
            | none => collected
          let children ← pyDictGet item "childrenIds" (.arr [])
          let childList ← pyIter children
          subfolders_loop (fun cid acc => get_all_folders_flat fuel cid items_by_id acc)
            childList items_by_id collected2
termination_by structural fuel _ _ _ => fuel

/-- Source lines 148-152, one iteration of the index-building loop at pair
start `i`: inspect `items[i + 1]` when in range; insert it keyed by its
`id` when it is a dict containing `'id'`.  The Python assignment
`items_by_id[item_data['id']] = item_data` hashes the key, so an
unhashable id value (list/dict) raises TypeError. -/
def build_index_step (items : JVal) (n : Nat) (d : PyDict) (i : Nat) : Except PyErr PyDict :=
  if i + 1 < n then do
    let item_data ← pyIndex items ((i + 1 : Nat) : Int)
    if isDict item_data then do
      let hasId ← pyIn "id" item_data
      if hasId then do
        let k ← pyGetKey item_data "id"
        if isHashable k then pure (dictSet d k item_data)
        else .error .typeError
      else pure d
    else pure d
  else pure d

/-- The index-building loop (lines 147-152) over the listed pair starts. -/
def build_index_go (items : JVal) (n : Nat) : List Nat → PyDict → Except PyErr PyDict
  | [], d => .ok d
  | i :: rest, d => do
      let d2 ← build_index_step items n d i
      build_index_go items n rest d2

/-- The indices produced by `range(0, n, 2)` (line 148). -/
def pair_starts (n : Nat) : List Nat := (List.range ((n + 1) / 2)).map (fun k => 2 * k)

/-- Source lines 146-152: build `items_by_id` from the raw `items` value
(`len(items)` raises TypeError on a non-sized value, as `range` does). -/
def items_by_id_of (items : JVal) : Except PyErr PyDict := do
  let n ← pyLen items
  build_index_go items n (pair_starts n) []

/-- The resolved space dict of lines 130-134: `id`, `title` and the
`pinned_container` slot, which starts as `None` (`JVal.null`). -/
structure SpaceInfo where
  sid : JVal
  title : JVal
  pinned_container : JVal
  deriving Repr

/-- Source lines 136-138: the `for i, cid in enumerate(container_ids)` scan;
each `cid == 'pinned'` with a following index overwrites
`pinned_container` with `container_ids[i + 1]`, and the scan continues. -/
def scan_pinned_go (container_ids : JVal) (n : Nat) : List JVal → Nat → JVal → Except PyErr JVal
  | [], _, pc => .ok pc
  | cid :: rest, i, pc =>
      if jeq cid (.str "pinned") && decide (i + 1 < n) then do
        let v ← pyIndex container_ids ((i + 1 : Nat) : Int)
        scan_pinned_go container_ids n rest (i + 1) v
      else scan_pinned_go container_ids n rest (i + 1) pc

/-- Source lines 128-139, body of the spaces loop for one entry: skip
non-dict entries and dicts without `'title'`; otherwise read `id` (a plain
subscript — KeyError when absent) and `title`, then scan `containerIDs`. -/
def resolve_space (space : JVal) : Except PyErr (Option SpaceInfo) :=
  if isDict space then do
    let hasTitle ← pyIn "title" space
    if hasTitle then do
      let sid ← pyGetKey space "id"
      let title ← pyGetKey space "title"
      let container_ids ← pyDictGet space "containerIDs" (.arr [])
      let cl ← pyIter container_ids
      let n ← pyLen container_ids
      let pc ← scan_pinned_go container_ids n cl 0 .null
      return some ⟨sid, title, pc⟩
    else return none
  else return none

/-- Source lines 127-139: the full spaces loop. -/
def resolve_spaces : List JVal → Except PyErr (List SpaceInfo)
  | [] => .ok []
  | s :: rest => do
      let o ← resolve_space s
      let more ← resolve_spaces rest
      match o with
      | some si => return (si :: more)
      | none => return more

/-- Source line 118: `data.get('sidebar', {}).get('containers', [])`. -/
def containers_of (data : JVal) : Except PyErr JVal := do
  let sidebar ← pyDictGet data "sidebar" (.obj [])
  pyDictGet sidebar "containers" (.arr [])

/-- The space-resolution prefix of `export_bookmarks` (lines 118-139) as a
standalone computation, used to state the failure condition of claim C9. -/
def resolved_spaces_of (data : JVal) : Except PyErr (List SpaceInfo) := do
  let containers ← containers_of data
  let last_container ← pyIndex containers (-1)
  let rawSpaces ← pyDictGet last_container "spaces" (.arr [])
  let spaceVals ← pyIter rawSpaces
  resolve_spaces spaceVals

/-- Source lines 172-175: collect the ids of items whose
`item.get('parentID')` equals (Python `==`) the space's pinned-container
value, in index iteration order. -/
def top_level_loop (pc : JVal) : PyDict → Except PyErr (List JVal)
  | [] => .ok []
  | (k, item) :: rest => do
      let p ← pyDictGet item "parentID" .null
      let tl ← top_level_loop pc rest
      if jeq p pc then return (k :: tl) else return tl

/-- Source lines 187-199: the loop over a space's top-level item ids,
accumulating flattened folders and standalone tabs.  The flattening is run
with fuel `items_by_id.length + 1`, which suffices for every acyclic index
(any recursion path visits distinct index keys). -/
def collect_top_loop (items_by_id : PyDict) :
    List JVal → List FlatFolder → List Tab → Except PyErr (List FlatFolder × List Tab)
  | [], folders, tabs => .ok (folders, tabs)
  | item_id :: rest, folders, tabs => do
      match dictFind items_by_id item_id with
      | none => .error .keyError
      | some item => do
        let ty ← get_item_type item
        if ty = some ItemType.folder then do
          let fs ← get_all_folders_flat (items_by_id.length + 1) item_id items_by_id []
          collect_top_loop items_by_id rest (folders ++ fs) tabs
        else if ty = some ItemType.tab then do
          let d ← pyGetKey item "data"
          let tab_data ← pyGetKey d "tab"
          let url ← pyDictGet tab_data "savedURL" (.str "")
          let t1 ← pyDictGet item "title" .null
          let title ←
            if pyTruthy t1 then pure t1
            else do
              let t2 ← pyDictGet tab_data "savedTitle" (.str "")
              pure (if pyTruthy t2 then t2 else .str "Untitled")
          if pyTruthy url then collect_top_loop items_by_id rest folders (tabs ++ [⟨title, url⟩])
          else collect_top_loop items_by_id rest folders tabs
        else collect_top_loop items_by_id rest folders tabs

/-- The per-space content written between a space's `<H3>` heading and its
closing `</DL><p>`: the flattened folders, then the standalone tabs. -/
structure SpaceBlock where
  title : JVal
  folders : List FlatFolder
  standalone : List Tab
  deriving Repr

/-- Source lines 168-216, the space loop reduced to its data content: one
`SpaceBlock` per space with at least one top-level item (line 177-178
skips the others). -/
def collect_blocks (items_by_id : PyDict) : List SpaceInfo → Except PyErr (List SpaceBlock)
  | [] => .ok []
  | sp :: rest => do
      let tl ← top_level_loop sp.pinned_container items_by_id
      if tl.isEmpty then collect_blocks items_by_id rest
      else do
        let (fs, ts) ← collect_top_loop items_by_id tl [] []
        let more ← collect_blocks items_by_id rest
        return ⟨sp.title, fs, ts⟩ :: more

/-- Source lines 116-225 up to serialization: the containers / spaces /
index / per-space-content pipeline of `export_bookmarks`.  `.ok none`
corresponds to the `return None` at lines 122 and 143. -/
def export_core (data : JVal) : Except PyErr (Option (List SpaceInfo × List SpaceBlock)) := do
  let containers ← containers_of data
  if !pyTruthy containers then return none
  else do
    let last_container ← pyIndex containers (-1)
    let rawSpaces ← pyDictGet last_container "spaces" (.arr [])
    let spaceVals ← pyIter rawSpaces
    let spaces ← resolve_spaces spaceVals
    if spaces.isEmpty then return none
    else do
      let rawItems ← pyDictGet last_container "items" (.arr [])
      let items_by_id ← items_by_id_of rawItems
      let blocks ← collect_blocks items_by_id spaces
      return some (spaces, blocks)

/-- Source lines 155-163: the fixed header, with the strftime timestamp as
the `now` parameter. -/
def header_lines (now : String) : List String :=
  ["<!DOCTYPE NETSCAPE-Bookmark-file-1>",
   "<!-- Exported from Arc Browser using arc_to_bookmarks.py -->",
   "<!-- Export date: " ++ now ++ " -->",
   "<META HTTP-EQUIV=\"Content-Type\" CONTENT=\"text/html; charset=UTF-8\">",
   "<TITLE>Arc Bookmarks</TITLE>",
   "<H1>Arc Bookmarks</H1>",
   "<DL><p>"]

/-- One bookmark anchor line (lines 206 and 213; `indent` is 12 spaces for
folder members, 8 for standalone tabs). -/
def render_tab_line (indent : String) (t : Tab) : String :=
  indent ++ "<DT><A HREF=\"" ++ escape_html_text t.url ++ "\">" ++ escape_html_text t.title ++ "</A>"

/-- Source lines 202-209: one flattened folder's lines. -/
def render_folder (f : FlatFolder) : List String :=
  ["        <DT><H3>" ++ escape_html_text f.title ++ "</H3>", "        <DL><p>"]
  ++ f.tabs.map (render_tab_line "            ")
  ++ ["        </DL><p>"]

/-- Source lines 180-216: the lines of one emitted space block. -/
def render_block (b : SpaceBlock) : List String :=
  ["    <DT><H3>" ++ escape_html_text b.title ++ "</H3>", "    <DL><p>"]
  ++ (b.folders.map render_folder).flatten
  ++ b.standalone.map (render_tab_line "        ")
  ++ ["    </DL><p>"]

/-- All lines appended by the space loop (lines 168-216). -/
def body_lines (blocks : List SpaceBlock) : List String := (blocks.map render_block).flatten

/-- The `total_folders` counter (lines 165, 209): one per folder block. -/
def total_folders (blocks : List SpaceBlock) : Nat :=
  (blocks.map (fun b => b.folders.length)).sum

/-- The `total_bookmarks` counter (lines 166, 207, 214): one per anchor
line, inside folders and standalone. -/
def total_bookmarks (blocks : List SpaceBlock) : Nat :=
  (blocks.map (fun b => (b.folders.map (fun f => f.tabs.length)).sum + b.standalone.length)).sum

/-- The dict returned at lines 220-225. -/
structure ExportResult where
  html : String
  folders : Nat
  bookmarks : Nat
  spaces : Nat
  deriving Repr

/-- Source lines 116-225, `export_bookmarks(data)`: the whole export.
`now` is the strftime timestamp of line 158.  `.ok none` is the `return
None` failure; `.error e` is a raised exception (caught by `main`'s
`except` clause, line 273). -/
def export_bookmarks (data : JVal) (now : String) : Except PyErr (Option ExportResult) :=
  (export_core data).bind fun oc =>
    match oc with
    | none => .ok none
    | some (spaces, blocks) =>
        .ok (some { html := join_lines (header_lines now ++ body_lines blocks ++ ["</DL><p>"]),
                    folders := total_folders blocks,
                    bookmarks := total_bookmarks blocks,
                    spaces := spaces.length })

/-- The `html_lines` list of the source (lines 155-218) before the
`'\n'.join` of line 221. -/
def export_lines (data : JVal) (now : String) : Except PyErr (Option (List String)) :=
  (export_core data).bind fun oc =>
    match oc with
    | none => .ok none
    | some (_, blocks) => .ok (some (header_lines now ++ body_lines blocks ++ ["</DL><p>"]))

/-! Spec-side definitions, written from the spec's words (sections 4.1 and
4.3 / claims C3, C6, C7) to be compared with the source embedding above. -/

/-- Spec side, claim C3: the elements at odd indices 2k+1 of the flat
items array (a trailing unpaired element has no odd partner). -/
def odd_elems : List JVal → List JVal
  | _ :: b :: rest => b :: odd_elems rest
  | _ => []

/-- Spec side, claim C3: insert a value into the index, keyed by its `id`
field, exactly when it is a structured record containing an `id` field;
skip everything else. -/
def index_spec_insert (d : PyDict) (v : JVal) : PyDict :=
  match v with
  | .obj fs =>
      match fs.find? (fun p => p.1 == "id") with
      | some p => dictSet d p.2 (.obj fs)
      | none => d
  | _ => d

/-- Spec side, claim C3 (spec section 4.1): the index built by inspecting
each odd-position element in order. -/
def index_spec (xs : List JVal) : PyDict := (odd_elems xs).foldl index_spec_insert []

/-- The child loop shape shared by the two spec-side flattening walks:
visit each child id that is present in the index and classifies as a
folder, in `childrenIds` order, concatenating the results of `g`. -/
def subs_spec_loop (g : JVal → Except PyErr (List FlatFolder)) :
    List JVal → PyDict → Except PyErr (List FlatFolder)
  | [], _ => .ok []
  | cid :: rest, items_by_id => do
      let present ← pyDictHas items_by_id cid
      if present then do
        let child := (dictFind items_by_id cid).getD .null
        let ty ← get_item_type child
        if ty = some ItemType.folder then do
          let here ← g cid
          let more ← subs_spec_loop g rest items_by_id
          return here ++ more
        else subs_spec_loop g rest items_by_id
      else subs_spec_loop g rest items_by_id

/-- Spec side, claims C7/C8 (spec section 4.3): accumulator-free pre-order
flattening — the current folder's entry (only if it has at least one kept
tab) followed by the flattenings of its folder children in `childrenIds`
order. -/
def gaff_spec : Nat → JVal → PyDict → Except PyErr (List FlatFolder)
  | 0, _, _ => .error .outOfFuel
  | fuel + 1, item_id, items_by_id => do
      let present ← pyDictHas items_by_id item_id
      if !present then return []
      else do
        let item := (dictFind items_by_id item_id).getD .null
        let ty ← get_item_type item
        if ty ≠ some ItemType.folder then return []
        else do
          let folderOpt ← get_folder_with_direct_tabs item_id items_by_id
          let own :=
            match folderOpt with
            | some f => if !f.tabs.isEmpty then [f] else []
            | none => []
          let children ← pyDictGet item "childrenIds" (.arr [])
          let childList ← pyIter children
          let subs ← subs_spec_loop (fun cid => gaff_spec fuel cid items_by_id)
            childList items_by_id
          return own ++ subs
termination_by structural fuel _ _ => fuel

/-- Spec side, claim C6: the same pre-order walk but keeping every visited
folder's entry whether or not it has kept tabs. -/
def walk_folders : Nat → JVal → PyDict → Except PyErr (List FlatFolder)
  | 0, _, _ => .error .outOfFuel
  | fuel + 1, item_id, items_by_id => do
      let present ← pyDictHas items_by_id item_id
      if !present then return []
      else do
        let item := (dictFind items_by_id item_id).getD .null
        let ty ← get_item_type item
        if ty ≠ some ItemType.folder then return []
        else do
          let folderOpt ← get_folder_with_direct_tabs item_id items_by_id
          let own :=
            match folderOpt with
            | some f => [f]
            | none => []
          let children ← pyDictGet item "childrenIds" (.arr [])
          let childList ← pyIter children
          let subs ← subs_spec_loop (fun cid => walk_folders fuel cid items_by_id)
            childList items_by_id
          return own ++ subs
termination_by structural fuel _ _ => fuel

/-- The `item.get('childrenIds', [])` list of an item, as the recursion at
lines 107-111 reads it. -/
def child_ids_of (item : JVal) : Except PyErr (List JVal) := do
  let children ← pyDictGet item "childrenIds" (.arr [])
  pyIter children

/-- One recursion step of `get_all_folders_flat` (claim C8): from item id
`a` the source recurses into child id `b` exactly when both are present in
the index, both classify as folders, and `b` occurs in `a`'s
`childrenIds`. -/
def recChild (items_by_id : PyDict) (a b : JVal) : Prop :=
  pyDictHas items_by_id a = .ok true ∧ pyDictHas items_by_id b = .ok true ∧
  ∃ ia cl ib,
    dictFind items_by_id a = some ia ∧
    get_item_type ia = .ok (some ItemType.folder) ∧
    child_ids_of ia = .ok cl ∧ b ∈ cl ∧
    dictFind items_by_id b = some ib ∧
    get_item_type ib = .ok (some ItemType.folder)

/-! Helper lemmas. -/

@[simp] theorem ok_bind {α β : Type} (a : α) (f : α → Except PyErr β) :
    (Except.ok a >>= f) = f a := rfl

@[simp] theorem error_bind {α β : Type} (e : PyErr) (f : α → Except PyErr β) :
    ((Except.error e : Except PyErr α) >>= f) = .error e := rfl

@[simp] theorem ok_map {α β : Type} (a : α) (f : α → β) :
    (Except.ok a : Except PyErr α).map f = .ok (f a) := rfl

@[simp] theorem error_map {α β : Type} (e : PyErr) (f : α → β) :
    (Except.error e : Except PyErr α).map f = (.error e : Except PyErr β) := rfl

@[simp] theorem pure_eq_ok {α : Type} (a : α) : (pure a : Except PyErr α) = .ok a := rfl

/-- Accumulator elimination for the child loop: running the source's
accumulator-threading loop equals prepending the accumulator to the
spec-side loop's output. -/
theorem subfolders_loop_spec (g : JVal → List FlatFolder → Except PyErr (List FlatFolder))
    (gs : JVal → Except PyErr (List FlatFolder))
    (hg : ∀ cid acc, g cid acc = (gs cid).map (fun L => acc ++ L)) :
    ∀ (l : List JVal) (d : PyDict) (acc : List FlatFolder),
      subfolders_loop g l d acc = (subs_spec_loop gs l d).map (fun L => acc ++ L)
  | [], d, acc => by simp [subfolders_loop, subs_spec_loop]
  | cid :: rest, d, acc => by
      simp only [subfolders_loop, subs_spec_loop]
      cases hp : pyDictHas d cid with
      | error e => simp
      | ok present =>
        cases present with
        | false => simp [subfolders_loop_spec g gs hg rest d acc]
        | true =>
          simp only [ok_bind, if_true]
          cases ht : get_item_type ((dictFind d cid).getD .null) with
          | error e => simp
          | ok ty =>
            by_cases hty : ty = some ItemType.folder
            · subst hty
              simp only [ok_bind, if_pos rfl, hg cid acc]
              cases hgs : gs cid with
              | error e => simp
              | ok L =>
                simp only [ok_map, ok_bind, subfolders_loop_spec g gs hg rest d (acc ++ L)]
                cases hss : subs_spec_loop gs rest d with
                | error e => simp
                | ok M => simp [List.append_assoc]
            · simp [hty, subfolders_loop_spec g gs hg rest d acc]

/-- Accumulator elimination for `get_all_folders_flat` (the content of
claim C7): the source function equals the spec-side pre-order flattening
prefixed with the accumulator. -/
theorem gaff_eq_spec : ∀ (fuel : Nat) (item_id : JVal) (d : PyDict) (acc : List FlatFolder),
    get_all_folders_flat fuel item_id d acc = (gaff_spec fuel item_id d).map (fun L => acc ++ L)
  | 0, _, _, _ => by simp [get_all_folders_flat, gaff_spec]
  | fuel + 1, item_id, d, acc => by
      simp only [get_all_folders_flat, gaff_spec]
      cases hp : pyDictHas d item_id with
      | error e => simp
      | ok present =>
        cases present with
        | false => simp
        | true =>
          simp only [ok_bind, Bool.not_true, Bool.false_eq_true, if_false]
          cases ht : get_item_type ((dictFind d item_id).getD .null) with
          | error e => simp
          | ok ty =>
            by_cases hty : ty = some ItemType.folder
            · subst hty
              simp only [ok_bind, ne_eq, not_true_eq_false, if_false]
              cases hf : get_folder_with_direct_tabs item_id d with
              | error e => simp
              | ok folderOpt =>
                cases hc : pyDictGet ((dictFind d item_id).getD .null) "childrenIds" (.arr []) with
                | error e => simp
                | ok children =>
                  cases hcl : pyIter children with
                  | error e => simp [hcl]
                  | ok childList =>
                    simp only [hcl, ok_bind]
                    rw [subfolders_loop_spec
                      (fun cid acc' => get_all_folders_flat fuel cid d acc')
                      (fun cid => gaff_spec fuel cid d)
                      (fun cid acc' => gaff_eq_spec fuel cid d acc') childList d]
                    cases hss : subs_spec_loop (fun cid => gaff_spec fuel cid d) childList d with
                    | error e => simp
                    | ok subs =>
                      cases folderOpt with
                      | none => simp
                      | some f =>
                        by_cases hemp : f.tabs.isEmpty <;>
                          simp [hemp, List.append_assoc]
            · simp [hty]


/-- Filtering lemma for the child loop: the kept-only loop equals the
keep-everything loop followed by a filter, given the same relation for the
recursive calls. -/
theorem subs_loop_filter (gs gw : JVal → Except PyErr (List FlatFolder))
    (hg : ∀ cid, gs cid = (gw cid).map (List.filter (fun f => !f.tabs.isEmpty))) :
    ∀ (l : List JVal) (d : PyDict),
      subs_spec_loop gs l d = (subs_spec_loop gw l d).map (List.filter (fun f => !f.tabs.isEmpty))
  | [], d => by simp [subs_spec_loop]
  | cid :: rest, d => by
      simp only [subs_spec_loop]
      cases hp : pyDictHas d cid with
      | error e => simp
      | ok present =>
        cases present with
        | false => simp [subs_loop_filter gs gw hg rest d]
        | true =>
          simp only [ok_bind, if_true]
          cases ht : get_item_type ((dictFind d cid).getD .null) with
          | error e => simp
          | ok ty =>
            by_cases hty : ty = some ItemType.folder
            · subst hty
              simp only [ok_bind, if_pos rfl, hg cid]
              cases hgw : gw cid with
              | error e => simp
              | ok H =>
                simp only [ok_map, ok_bind, subs_loop_filter gs gw hg rest d]
                cases hsw : subs_spec_loop gw rest d with
                | error e => simp
                | ok M => simp [List.filter_append]
            · simp [hty, subs_loop_filter gs gw hg rest d]

/-- The kept-folders flattening is the unfiltered pre-order walk filtered
to folders with at least one kept tab (content of claim C6). -/
theorem gaff_spec_eq_walk : ∀ (fuel : Nat) (item_id : JVal) (d : PyDict),
    gaff_spec fuel item_id d
      = (walk_folders fuel item_id d).map (List.filter (fun f => !f.tabs.isEmpty))
  | 0, _, _ => by simp [gaff_spec, walk_folders]
  | fuel + 1, item_id, d => by
      simp only [gaff_spec, walk_folders]
      cases hp : pyDictHas d item_id with
      | error e => simp
      | ok present =>
        cases present with
        | false => simp
        | true =>
          simp only [ok_bind, Bool.not_true, Bool.false_eq_true, if_false]
          cases ht : get_item_type ((dictFind d item_id).getD .null) with
          | error e => simp
          | ok ty =>
            by_cases hty : ty = some ItemType.folder
            · subst hty
              simp only [ok_bind, ne_eq, not_true_eq_false, if_false]
              cases hf : get_folder_with_direct_tabs item_id d with
              | error e => simp
              | ok folderOpt =>
                cases hc : pyDictGet ((dictFind d item_id).getD .null) "childrenIds" (.arr []) with
                | error e => simp
                | ok children =>
                  cases hcl : pyIter children with
                  | error e => simp [hcl]
                  | ok childList =>
                    simp only [hcl, ok_bind]
                    rw [subs_loop_filter (fun cid => gaff_spec fuel cid d)
                      (fun cid => walk_folders fuel cid d)
                      (fun cid => gaff_spec_eq_walk fuel cid d) childList d]
                    cases hsw : subs_spec_loop (fun cid => walk_folders fuel cid d) childList d with
                    | error e => simp
                    | ok subs =>
                      cases folderOpt with
                      | none => simp
                      | some f =>
                        by_cases hemp : f.tabs.isEmpty <;>
                          simp [hemp, List.filter_append, List.filter_cons]
            · simp [hty]

/-- Inversion of a successful monadic bind (declared early; also used by
the out-of-fuel analysis below). -/
theorem bind_ok_inv {α β : Type} {e : Except PyErr α} {f : α → Except PyErr β} {b : β}
    (h : (e >>= f) = .ok b) : ∃ a, e = .ok a ∧ f a = .ok b := by
  cases e with
  | error err => simp at h
  | ok a => exact ⟨a, rfl, h⟩

/-- A bound computation is not out of fuel when neither its head nor its
continuation is. -/
theorem bind_not_oof {α β : Type} {e : Except PyErr α} {f : α → Except PyErr β}
    (he : e ≠ .error .outOfFuel) (hf : ∀ a, e = .ok a → f a ≠ .error .outOfFuel) :
    (e >>= f) ≠ .error .outOfFuel := by
  cases e with
  | error err => simpa using he
  | ok a => simpa using hf a rfl

/-- Python `in` only raises TypeError, never the out-of-fuel sentinel. -/
theorem pyIn_not_oof (k : String) (v : JVal) : pyIn k v ≠ .error .outOfFuel := by
  cases v <;> simp [pyIn]

/-- Python subscription only raises KeyError/TypeError. -/
theorem pyGetKey_not_oof (v : JVal) (k : String) : pyGetKey v k ≠ .error .outOfFuel := by
  cases v with
  | obj fs =>
      simp only [pyGetKey]
      cases fs.find? (fun p => p.1 == k) <;> simp
  | null => simp [pyGetKey]
  | bool b => simp [pyGetKey]
  | num n => simp [pyGetKey]
  | str s => simp [pyGetKey]
  | arr xs => simp [pyGetKey]

/-- Python `.get` only raises AttributeError. -/
theorem pyDictGet_not_oof (v : JVal) (k : String) (dflt : JVal) :
    pyDictGet v k dflt ≠ .error .outOfFuel := by
  cases v with
  | obj fs =>
      simp only [pyDictGet]
      cases fs.find? (fun p => p.1 == k) <;> simp
  | null => simp [pyDictGet]
  | bool b => simp [pyDictGet]
  | num n => simp [pyDictGet]
  | str s => simp [pyDictGet]
  | arr xs => simp [pyDictGet]

/-- Python iteration only raises TypeError. -/
theorem pyIter_not_oof (v : JVal) : pyIter v ≠ .error .outOfFuel := by
  cases v <;> simp [pyIter]

/-- Dictionary membership only raises TypeError. -/
theorem pyDictHas_not_oof (d : PyDict) (k : JVal) : pyDictHas d k ≠ .error .outOfFuel := by
  unfold pyDictHas
  by_cases hh : isHashable k = true
  · simp [hh]
  · simp [hh]

/-- The classifier is non-recursive: it never runs out of fuel. -/
theorem get_item_type_not_oof (item : JVal) : get_item_type item ≠ .error .outOfFuel := by
  unfold get_item_type
  apply bind_not_oof (pyIn_not_oof _ _)
  intro hasData _
  cases hasData with
  | false => simp
  | true =>
      simp only [Bool.not_true, Bool.false_eq_true, if_false]
      apply bind_not_oof (pyGetKey_not_oof _ _)
      intro d2 _
      apply bind_not_oof (pyIn_not_oof _ _)
      intro hasList _
      cases hasList with
      | true => simp
      | false =>
          simp only [Bool.false_eq_true, if_false]
          apply bind_not_oof (pyIn_not_oof _ _)
          intro hasTab _
          cases hasTab <;> simp

/-- The direct-tab loop is non-recursive in fuel: never out of fuel. -/
theorem direct_tabs_loop_not_oof : ∀ (l : List JVal) (d : PyDict),
    direct_tabs_loop l d ≠ .error .outOfFuel
  | [], d => by simp [direct_tabs_loop]
  | cid :: rest, d => by
      simp only [direct_tabs_loop]
      apply bind_not_oof (pyDictHas_not_oof _ _)
      intro present _
      cases present with
      | false => simpa using direct_tabs_loop_not_oof rest d
      | true =>
          simp only [if_true]
          apply bind_not_oof (get_item_type_not_oof _)
          intro ty _
          by_cases htab : ty = some ItemType.tab
          · subst htab
            simp only [if_pos rfl]
            apply bind_not_oof (pyGetKey_not_oof _ _)
            intro d1 _
            apply bind_not_oof (pyGetKey_not_oof _ _)
            intro td _
            apply bind_not_oof (pyDictGet_not_oof _ _ _)
            intro url _
            apply bind_not_oof (pyDictGet_not_oof _ _ _)
            intro t1 _
            by_cases ht1 : pyTruthy t1 = true
            · simp only [ht1, if_true, pure_eq_ok, ok_bind]
              apply bind_not_oof (direct_tabs_loop_not_oof rest d)
              intro restTabs _
              by_cases hu : pyTruthy url = true <;> simp [hu]
            · simp only [ht1, Bool.false_eq_true, if_false]
              apply bind_not_oof (pyDictGet_not_oof _ _ _)
              intro t2 _
              simp only [pure_eq_ok, ok_bind]
              apply bind_not_oof (direct_tabs_loop_not_oof rest d)
              intro restTabs _
              by_cases hu : pyTruthy url = true <;> simp [hu]
          · simp only [if_neg htab]
            exact direct_tabs_loop_not_oof rest d

/-- `get_folder_with_direct_tabs` is non-recursive in fuel: never out of
fuel. -/
theorem gfwdt_not_oof (item_id : JVal) (d : PyDict) :
    get_folder_with_direct_tabs item_id d ≠ .error .outOfFuel := by
  simp only [get_folder_with_direct_tabs]
  apply bind_not_oof (pyDictHas_not_oof _ _)
  intro present _
  cases present with
  | false => simp
  | true =>
      simp only [Bool.not_true, Bool.false_eq_true, if_false]
      apply bind_not_oof (get_item_type_not_oof _)
      intro ty _
      by_cases hty : ty = some ItemType.folder
      · subst hty
        simp only [ne_eq, not_true_eq_false, if_false]
        apply bind_not_oof (pyDictGet_not_oof _ _ _)
        intro children _
        apply bind_not_oof (pyIter_not_oof _)
        intro childList _
        apply bind_not_oof (direct_tabs_loop_not_oof _ _)
        intro tabs _
        apply bind_not_oof (pyDictGet_not_oof _ _ _)
        intro t _
        simp
      · simp [hty]

/-- Terminating stabilization of a fuel-indexed run: beyond some fuel
bound the result no longer changes, and the stable result is not the
out-of-fuel sentinel — i.e. the run genuinely finishes (with a value or a
real Python error) rather than merely being stuck at out-of-fuel. -/
def StbT {α : Type} (g : Nat → Except PyErr α) : Prop :=
  ∃ N, (∀ fuel, N ≤ fuel → g fuel = g N) ∧ g N ≠ .error .outOfFuel

/-- A fuel-independent success is terminating-stable. -/
theorem StbT.constOk {α : Type} (a : α) :
    StbT (fun _ => (Except.ok a : Except PyErr α)) := ⟨0, fun _ _ => rfl, by simp⟩

/-- A fuel-independent error other than out-of-fuel is terminating-stable. -/
theorem StbT.constErr {α : Type} {e : PyErr} (he : e ≠ .outOfFuel) :
    StbT (fun _ => (Except.error e : Except PyErr α)) :=
  ⟨0, fun _ _ => rfl, by simpa using he⟩

/-- Sequencing two terminating-stable runs and appending their results is
terminating-stable. -/
theorem StbT.bind_append {f g : Nat → Except PyErr (List FlatFolder)}
    (hf : StbT f) (hg : StbT g) :
    StbT (fun n => f n >>= fun here => g n >>= fun more => pure (here ++ more)) := by
  obtain ⟨N1, h1, h1o⟩ := hf
  obtain ⟨N2, h2, h2o⟩ := hg
  refine ⟨max N1 N2, fun fuel hfu => ?_, ?_⟩
  · have e1 : f fuel = f (max N1 N2) := by
      rw [h1 fuel (le_trans (le_max_left _ _) hfu), h1 (max N1 N2) (le_max_left _ _)]
    have e2 : g fuel = g (max N1 N2) := by
      rw [h2 fuel (le_trans (le_max_right _ _) hfu), h2 (max N1 N2) (le_max_right _ _)]
    simp only [e1, e2]
  · simp only []
    rw [h1 (max N1 N2) (le_max_left _ _), h2 (max N1 N2) (le_max_right _ _)]
    apply bind_not_oof h1o
    intro here _
    apply bind_not_oof h2o
    intro more _
    simp

/-- A key found by `pyDictHas` is found by `dictFind`. -/
theorem dictFind_of_has {d : PyDict} {k : JVal} (h : pyDictHas d k = .ok true) :
    dictFind d k = some ((dictFind d k).getD .null) := by
  unfold pyDictHas at h
  by_cases hh : isHashable k = true
  · simp only [hh, if_true, Except.ok.injEq] at h
    cases hd : dictFind d k with
    | none => rw [hd] at h; simp at h
    | some v => simp
  · simp [hh] at h

/-- Terminating stabilization of the child loop, given terminating
stabilization of the recursive call for every child the loop actually
recurses into. -/
theorem subs_loop_stbT (d : PyDict) (gs : Nat → JVal → Except PyErr (List FlatFolder)) :
    ∀ l : List JVal,
      (∀ cid ∈ l, pyDictHas d cid = .ok true →
        get_item_type ((dictFind d cid).getD .null) = .ok (some ItemType.folder) →
        StbT (fun fuel => gs fuel cid)) →
      StbT (fun fuel => subs_spec_loop (gs fuel) l d)
  | [], _ => by
      simpa [subs_spec_loop] using StbT.constOk ([] : List FlatFolder)
  | cid :: rest, hl => by
      have hrest : StbT (fun fuel => subs_spec_loop (gs fuel) rest d) :=
        subs_loop_stbT d gs rest (fun c hc => hl c (List.mem_cons_of_mem _ hc))
      simp only [subs_spec_loop]
      cases hp : pyDictHas d cid with
      | error e =>
          have hne : e ≠ .outOfFuel := by
            have h2 := pyDictHas_not_oof d cid
            rw [hp] at h2
            simpa using h2
          simpa using StbT.constErr (α := List FlatFolder) hne
      | ok present =>
        cases present with
        | false => simpa using hrest
        | true =>
          simp only [ok_bind, if_true]
          cases ht : get_item_type ((dictFind d cid).getD .null) with
          | error e =>
              have hne : e ≠ .outOfFuel := by
                have h2 := get_item_type_not_oof ((dictFind d cid).getD .null)
                rw [ht] at h2
                simpa using h2
              simpa using StbT.constErr (α := List FlatFolder) hne
          | ok ty =>
            by_cases hty : ty = some ItemType.folder
            · subst hty
              simp only [ok_bind, if_pos rfl]
              exact StbT.bind_append (hl cid (List.mem_cons_self _ _) hp ht) hrest
            · simpa [hty] using hrest

/-- Terminating stabilization of the spec-side flattening under a
well-founded (acyclic) child relation, by well-founded induction over
`recChild`: the result stops depending on the fuel and is never the
out-of-fuel sentinel. -/
theorem gaff_spec_stbT (d : PyDict)
    (hwf : WellFounded (fun b a => recChild d a b)) (a : JVal) :
    StbT (fun fuel => gaff_spec fuel a d) := by
  refine hwf.induction (C := fun y => StbT (fun fuel => gaff_spec fuel y d)) a (fun x ih => ?_)
  cases hp : pyDictHas d x with
  | error e =>
      have hne : e ≠ .outOfFuel := by
        have h2 := pyDictHas_not_oof d x
        rw [hp] at h2
        simpa using h2
      refine ⟨0 + 1, fun fuel hfu => ?_, ?_⟩
      · obtain ⟨k, rfl⟩ : ∃ k, fuel = k + 1 := ⟨fuel - 1, by omega⟩
        simp only [gaff_spec, hp, error_bind]
      · simp only [gaff_spec, hp, error_bind]
        simpa using hne
  | ok present =>
    cases present with
    | false =>
        refine ⟨0 + 1, fun fuel hfu => ?_, ?_⟩
        · obtain ⟨k, rfl⟩ : ∃ k, fuel = k + 1 := ⟨fuel - 1, by omega⟩
          simp only [gaff_spec, hp, ok_bind, Bool.not_false, if_true]
        · simp only [gaff_spec, hp, ok_bind, Bool.not_false, if_true]
          simp
    | true =>
      cases ht : get_item_type ((dictFind d x).getD .null) with
      | error e =>
          have hne : e ≠ .outOfFuel := by
            have h2 := get_item_type_not_oof ((dictFind d x).getD .null)
            rw [ht] at h2
            simpa using h2
          refine ⟨0 + 1, fun fuel hfu => ?_, ?_⟩
          · obtain ⟨k, rfl⟩ : ∃ k, fuel = k + 1 := ⟨fuel - 1, by omega⟩
            simp only [gaff_spec, hp, ok_bind, Bool.not_true, Bool.false_eq_true, if_false, ht,
              error_bind]
          · simp only [gaff_spec, hp, ok_bind, Bool.not_true, Bool.false_eq_true, if_false, ht,
              error_bind]
            simpa using hne
      | ok ty =>
        by_cases hty : ty = some ItemType.folder
        · subst hty
          cases hf : get_folder_with_direct_tabs x d with
          | error e =>
              have hne : e ≠ .outOfFuel := by
                have h2 := gfwdt_not_oof x d
                rw [hf] at h2
                simpa using h2
              refine ⟨0 + 1, fun fuel hfu => ?_, ?_⟩
              · obtain ⟨k, rfl⟩ : ∃ k, fuel = k + 1 := ⟨fuel - 1, by omega⟩
                simp only [gaff_spec, hp, ok_bind, Bool.not_true, Bool.false_eq_true, if_false,
                  ht, ne_eq, not_true_eq_false, hf, error_bind]
              · simp only [gaff_spec, hp, ok_bind, Bool.not_true, Bool.false_eq_true, if_false,
                  ht, ne_eq, not_true_eq_false, hf, error_bind]
                simpa using hne
          | ok folderOpt =>
            cases hc : pyDictGet ((dictFind d x).getD .null) "childrenIds" (.arr []) with
            | error e =>
                have hne : e ≠ .outOfFuel := by
                  have h2 := pyDictGet_not_oof ((dictFind d x).getD .null) "childrenIds" (.arr [])
                  rw [hc] at h2
                  simpa using h2
                refine ⟨0 + 1, fun fuel hfu => ?_, ?_⟩
                · obtain ⟨k, rfl⟩ : ∃ k, fuel = k + 1 := ⟨fuel - 1, by omega⟩
                  simp only [gaff_spec, hp, ok_bind, Bool.not_true, Bool.false_eq_true, if_false,
                    ht, ne_eq, not_true_eq_false, hf, hc, error_bind]
                · simp only [gaff_spec, hp, ok_bind, Bool.not_true, Bool.false_eq_true, if_false,
                    ht, ne_eq, not_true_eq_false, hf, hc, error_bind]
                  simpa using hne
            | ok children =>
              cases hcl : pyIter children with
              | error e =>
                  have hne : e ≠ .outOfFuel := by
                    have h2 := pyIter_not_oof children
                    rw [hcl] at h2
                    simpa using h2
                  refine ⟨0 + 1, fun fuel hfu => ?_, ?_⟩
                  · obtain ⟨k, rfl⟩ : ∃ k, fuel = k + 1 := ⟨fuel - 1, by omega⟩
                    simp only [gaff_spec, hp, ok_bind, Bool.not_true, Bool.false_eq_true,
                      if_false, ht, ne_eq, not_true_eq_false, hf, hc, hcl, error_bind]
                  · simp only [gaff_spec, hp, ok_bind, Bool.not_true, Bool.false_eq_true,
                      if_false, ht, ne_eq, not_true_eq_false, hf, hc, hcl, error_bind]
                    simpa using hne
              | ok childList =>
                  have hsub : StbT (fun fuel =>
                      subs_spec_loop (fun cid => gaff_spec fuel cid d) childList d) := by
                    refine subs_loop_stbT d (fun fuel cid => gaff_spec fuel cid d) childList
                      (fun cid hmem h1 h2 => ih cid ?_)
                    refine ⟨hp, h1, (dictFind d x).getD .null, childList,
                      (dictFind d cid).getD .null, dictFind_of_has hp, ht, ?_, hmem,
                      dictFind_of_has h1, h2⟩
                    simp [child_ids_of, hc, hcl]
                  have key : ∀ k m : Nat,
                      subs_spec_loop (fun cid => gaff_spec k cid d) childList d
                        = subs_spec_loop (fun cid => gaff_spec m cid d) childList d →
                      gaff_spec (k + 1) x d = gaff_spec (m + 1) x d := by
                    intro k m hkm
                    simp only [gaff_spec, hp, ok_bind, Bool.not_true, Bool.false_eq_true,
                      if_false, ht, ne_eq, not_true_eq_false, hf, hc, hcl, hkm]
                  obtain ⟨N, hN, hNo⟩ := hsub
                  refine ⟨N + 1, fun fuel hfu => ?_, ?_⟩
                  · obtain ⟨k, rfl⟩ : ∃ k, fuel = k + 1 := ⟨fuel - 1, by omega⟩
                    exact key k N (hN k (by omega))
                  · simp only [gaff_spec, hp, ok_bind, Bool.not_true, Bool.false_eq_true,
                      if_false, ht, ne_eq, not_true_eq_false, hf, hc, hcl]
                    apply bind_not_oof
                    · simpa using hNo
                    · intro subs _
                      simp
        · refine ⟨0 + 1, fun fuel hfu => ?_, ?_⟩
          · obtain ⟨k, rfl⟩ : ∃ k, fuel = k + 1 := ⟨fuel - 1, by omega⟩
            simp only [gaff_spec, hp, ok_bind, Bool.not_true, Bool.false_eq_true, if_false, ht,
              ne_eq, hty, not_false_eq_true, if_true]
          · simp only [gaff_spec, hp, ok_bind, Bool.not_true, Bool.false_eq_true, if_false, ht,
              ne_eq, hty, not_false_eq_true, if_true]
            simp

/-- Every tab in the list has a Python-truthy URL (in particular neither
the empty string nor an absent/`None` URL). -/
def tabs_ok (ts : List Tab) : Prop := ∀ t ∈ ts, pyTruthy t.url = true

/-- A truthy value is neither the empty string nor `None`. -/
theorem pyTruthy_ne {v : JVal} (h : pyTruthy v = true) : v ≠ .str "" ∧ v ≠ .null := by
  cases v <;> simp_all [pyTruthy]

/-- The direct-tab loop only keeps tabs with truthy URLs (the `if url:`
test at line 80). -/
theorem direct_tabs_loop_ok : ∀ (l : List JVal) (d : PyDict) (ts : List Tab),
    direct_tabs_loop l d = .ok ts → tabs_ok ts
  | [], d, ts => by
      intro h
      simp only [direct_tabs_loop, Except.ok.injEq] at h
      subst h
      intro t ht
      simp at ht
  | cid :: rest, d, ts => by
      intro h
      simp only [direct_tabs_loop] at h
      obtain ⟨present, hp, h⟩ := bind_ok_inv h
      cases present with
      | false =>
          simp only [Bool.false_eq_true, if_false] at h
          exact direct_tabs_loop_ok rest d ts h
      | true =>
          simp only [if_true] at h
          obtain ⟨ty, hty, h⟩ := bind_ok_inv h
          by_cases htab : ty = some ItemType.tab
          · subst htab
            simp only [if_pos rfl] at h
            obtain ⟨dta, hd, h⟩ := bind_ok_inv h
            obtain ⟨tab_data, htd, h⟩ := bind_ok_inv h
            obtain ⟨url, hurl, h⟩ := bind_ok_inv h
            obtain ⟨t1, ht1, h⟩ := bind_ok_inv h
            have htail : ∃ title, (do
                let restTabs ← direct_tabs_loop rest d
                if pyTruthy url = true then pure (⟨title, url⟩ :: restTabs)
                else pure restTabs) = Except.ok ts := by
              by_cases ht1t : pyTruthy t1 = true
              · exact ⟨t1, by simpa [ht1t] using h⟩
              · simp only [ht1t, Bool.false_eq_true, if_false] at h
                obtain ⟨t2, ht2, h⟩ := bind_ok_inv h
                exact ⟨_, by simpa using h⟩
            obtain ⟨title, h⟩ := htail
            obtain ⟨restTabs, hrest, h⟩ := bind_ok_inv h
            have hr := direct_tabs_loop_ok rest d restTabs hrest
            by_cases hu : pyTruthy url = true
            · simp only [hu, if_true, pure_eq_ok, Except.ok.injEq] at h
              subst h
              intro t ht
              rcases List.mem_cons.mp ht with h1 | h2
              · subst h1; exact hu
              · exact hr t h2
            · simp only [hu, Bool.false_eq_true, if_false, pure_eq_ok, Except.ok.injEq] at h
              subst h
              exact hr
          · simp only [if_neg htab] at h
            exact direct_tabs_loop_ok rest d ts h

/-- A folder produced by `get_folder_with_direct_tabs` carries only tabs
with truthy URLs. -/
theorem gfwdt_ok {item_id : JVal} {d : PyDict} {fo : Option FlatFolder}
    (h : get_folder_with_direct_tabs item_id d = .ok fo) :
    ∀ f, fo = some f → tabs_ok f.tabs := by
  intro f hf
  simp only [get_folder_with_direct_tabs] at h
  obtain ⟨present, hp, h⟩ := bind_ok_inv h
  cases present with
  | false => simp only [Bool.not_false, if_true, pure_eq_ok, Except.ok.injEq] at h
             subst h; cases hf
  | true =>
      simp only [Bool.not_true, Bool.false_eq_true, if_false] at h
      obtain ⟨ty, hty, h⟩ := bind_ok_inv h
      by_cases hfold : ty = some ItemType.folder
      · subst hfold
        simp only [ne_eq, not_true_eq_false, if_false] at h
        obtain ⟨children, hc, h⟩ := bind_ok_inv h
        obtain ⟨childList, hcl, h⟩ := bind_ok_inv h
        obtain ⟨tabs, htabs, h⟩ := bind_ok_inv h
        obtain ⟨t, ht, h⟩ := bind_ok_inv h
        simp only [pure_eq_ok, Except.ok.injEq] at h
        subst h
        cases hf
        exact direct_tabs_loop_ok childList d tabs htabs
      · simp only [ne_eq, hfold, not_false_eq_true, if_true, pure_eq_ok,
          Except.ok.injEq] at h
        subst h; cases hf

/-- Folders collected by the child loop carry only truthy-URL tabs,
provided the recursive call does. -/
theorem subs_loop_folders_ok (gs : JVal → Except PyErr (List FlatFolder))
    (hgs : ∀ cid L, gs cid = .ok L → ∀ f ∈ L, tabs_ok f.tabs) :
    ∀ (l : List JVal) (d : PyDict) (L : List FlatFolder),
      subs_spec_loop gs l d = .ok L → ∀ f ∈ L, tabs_ok f.tabs
  | [], d, L => by
      intro h
      simp only [subs_spec_loop, Except.ok.injEq] at h
      subst h
      intro f hf
      simp at hf
  | cid :: rest, d, L => by
      intro h
      simp only [subs_spec_loop] at h
      obtain ⟨present, hp, h⟩ := bind_ok_inv h
      cases present with
      | false =>
          simp only [Bool.false_eq_true, if_false] at h
          exact subs_loop_folders_ok gs hgs rest d L h
      | true =>
          simp only [if_true] at h
          obtain ⟨ty, hty, h⟩ := bind_ok_inv h
          by_cases hfold : ty = some ItemType.folder
          · subst hfold
            simp only [if_pos rfl] at h
            obtain ⟨here, hhere, h⟩ := bind_ok_inv h
            obtain ⟨more, hmore, h⟩ := bind_ok_inv h
            simp only [pure_eq_ok, Except.ok.injEq] at h
            subst h
            intro f hf
            rcases List.mem_append.mp hf with h1 | h2
            · exact hgs cid here hhere f h1
            · exact subs_loop_folders_ok gs hgs rest d more hmore f h2
          · simp only [if_neg hfold] at h
            exact subs_loop_folders_ok gs hgs rest d L h

/-- Every folder in the spec-side flattening carries only truthy-URL
tabs. -/
theorem gaff_spec_folders_ok : ∀ (fuel : Nat) (item_id : JVal) (d : PyDict) (L : List FlatFolder),
    gaff_spec fuel item_id d = .ok L → ∀ f ∈ L, tabs_ok f.tabs
  | 0, _, _, L => by intro h; simp [gaff_spec] at h
  | fuel + 1, item_id, d, L => by
      intro h
      simp only [gaff_spec] at h
      obtain ⟨present, hp, h⟩ := bind_ok_inv h
      cases present with
      | false =>
          simp only [Bool.not_false, if_true, pure_eq_ok, Except.ok.injEq] at h
          subst h
          intro f hf
          simp at hf
      | true =>
          simp only [Bool.not_true, Bool.false_eq_true, if_false] at h
          obtain ⟨ty, hty, h⟩ := bind_ok_inv h
          by_cases hfold : ty = some ItemType.folder
          · subst hfold
            simp only [ne_eq, not_true_eq_false, if_false] at h
            obtain ⟨folderOpt, hf2, h⟩ := bind_ok_inv h
            obtain ⟨children, hc, h⟩ := bind_ok_inv h
            obtain ⟨childList, hcl, h⟩ := bind_ok_inv h
            obtain ⟨subs, hsubs, h⟩ := bind_ok_inv h
            simp only [pure_eq_ok, Except.ok.injEq] at h
            subst h
            intro f hf
            rcases List.mem_append.mp hf with h1 | h2
            · cases folderOpt with
              | none => simp at h1
              | some f0 =>
                  have hok := gfwdt_ok hf2 f0 rfl
                  by_cases hemp : f0.tabs.isEmpty
                  · simp [hemp] at h1
                  · simp only [hemp, Bool.not_false, if_true, List.mem_singleton] at h1
                    subst h1
                    exact hok
            · exact subs_loop_folders_ok (fun cid => gaff_spec fuel cid d)
                (fun cid L2 hL2 => gaff_spec_folders_ok fuel cid d L2 hL2)
                childList d subs hsubs f h2
          · simp only [ne_eq, hfold, not_false_eq_true, if_true, pure_eq_ok,
              Except.ok.injEq] at h
            subst h
            intro f hf
            simp at hf

/-- Every folder in the source flattening (empty accumulator) carries only
truthy-URL tabs. -/
theorem gaff_folders_ok {fuel : Nat} {item_id : JVal} {d : PyDict} {L : List FlatFolder}
    (h : get_all_folders_flat fuel item_id d [] = .ok L) : ∀ f ∈ L, tabs_ok f.tabs := by
  rw [gaff_eq_spec] at h
  cases hs : gaff_spec fuel item_id d with
  | error e => rw [hs] at h; simp at h
  | ok L2 =>
      rw [hs] at h
      simp only [ok_map, List.nil_append, Except.ok.injEq] at h
      subst h
      exact gaff_spec_folders_ok fuel item_id d L2 hs


/-- The top-level collection loop preserves and establishes the truthy-URL
invariant on both folders and standalone tabs. -/
theorem collect_top_loop_ok : ∀ (l : List JVal) (d : PyDict) (folders : List FlatFolder)
    (tabs : List Tab) (out : List FlatFolder × List Tab),
    (∀ f ∈ folders, tabs_ok f.tabs) → tabs_ok tabs →
    collect_top_loop d l folders tabs = .ok out →
    (∀ f ∈ out.1, tabs_ok f.tabs) ∧ tabs_ok out.2
  | [], d, folders, tabs, out => by
      intro hfo hta h
      simp only [collect_top_loop, Except.ok.injEq] at h
      subst h
      exact ⟨hfo, hta⟩
  | item_id :: rest, d, folders, tabs, out => by
      intro hfo hta h
      simp only [collect_top_loop] at h
      cases hdf : dictFind d item_id with
      | none => rw [hdf] at h; simp at h
      | some item =>
          rw [hdf] at h
          obtain ⟨ty, hty, h⟩ := bind_ok_inv h
          by_cases hfold : ty = some ItemType.folder
          · subst hfold
            simp only [if_pos rfl] at h
            obtain ⟨fs, hfs, h⟩ := bind_ok_inv h
            refine collect_top_loop_ok rest d (folders ++ fs) tabs out ?_ hta h
            intro f hf
            rcases List.mem_append.mp hf with h1 | h2
            · exact hfo f h1
            · exact gaff_folders_ok hfs f h2
          · simp only [if_neg hfold] at h
            by_cases htab : ty = some ItemType.tab
            · subst htab
              simp only [if_pos rfl] at h
              obtain ⟨dta, hd, h⟩ := bind_ok_inv h
              obtain ⟨tab_data, htd, h⟩ := bind_ok_inv h
              obtain ⟨url, hurl, h⟩ := bind_ok_inv h
              obtain ⟨t1, ht1, h⟩ := bind_ok_inv h
              by_cases hu : pyTruthy url = true
              · have hnext : ∃ title,
                    collect_top_loop d rest folders (tabs ++ [⟨title, url⟩]) = Except.ok out := by
                  by_cases ht1t : pyTruthy t1 = true
                  · exact ⟨t1, by simpa [ht1t, hu] using h⟩
                  · simp only [ht1t, Bool.false_eq_true, if_false] at h
                    obtain ⟨t2, ht2, h⟩ := bind_ok_inv h
                    exact ⟨_, by simpa [hu] using h⟩
                obtain ⟨title, hnext⟩ := hnext
                refine collect_top_loop_ok rest d folders (tabs ++ [⟨title, url⟩]) out hfo ?_ hnext
                intro t ht
                rcases List.mem_append.mp ht with h1 | h2
                · exact hta t h1
                · rw [List.mem_singleton.mp h2]
                  exact hu
              · have hnext : collect_top_loop d rest folders tabs = Except.ok out := by
                  by_cases ht1t : pyTruthy t1 = true
                  · simpa [ht1t, hu] using h
                  · simp only [ht1t, Bool.false_eq_true, if_false] at h
                    obtain ⟨t2, ht2, h⟩ := bind_ok_inv h
                    simpa [hu] using h
                exact collect_top_loop_ok rest d folders tabs out hfo hta hnext
            · simp only [if_neg htab] at h
              exact collect_top_loop_ok rest d folders tabs out hfo hta h

/-- Every emitted space block satisfies the truthy-URL invariant. -/
theorem collect_blocks_ok : ∀ (sps : List SpaceInfo) (d : PyDict) (B : List SpaceBlock),
    collect_blocks d sps = .ok B →
    ∀ b ∈ B, (∀ f ∈ b.folders, tabs_ok f.tabs) ∧ tabs_ok b.standalone
  | [], d, B => by
      intro h
      simp only [collect_blocks, Except.ok.injEq] at h
      subst h
      intro b hb
      simp at hb
  | sp :: rest, d, B => by
      intro h
      simp only [collect_blocks] at h
      obtain ⟨tl, htl, h⟩ := bind_ok_inv h
      by_cases hemp : tl.isEmpty
      · simp only [hemp, if_true] at h
        exact collect_blocks_ok rest d B h
      · simp only [hemp, Bool.false_eq_true, if_false] at h
        obtain ⟨ft, hft, h⟩ := bind_ok_inv h
        obtain ⟨more, hmore, h⟩ := bind_ok_inv h
        simp only [pure_eq_ok, Except.ok.injEq] at h
        subst h
        intro b hb
        rcases List.mem_cons.mp hb with h1 | h2
        · subst h1
          obtain ⟨hfo, hta⟩ := collect_top_loop_ok tl d [] [] ft
            (by intro f hf; simp at hf) (by intro t ht; simp at ht) (by
              cases ft with
              | mk a b => exact hft)
          exact ⟨hfo, hta⟩
        · exact collect_blocks_ok rest d more hmore b h2


/-- The index that `export_bookmarks` builds (lines 146-152), as a
standalone computation on the document. -/
def items_by_id_of_from (data : JVal) : Except PyErr PyDict := do
  let containers ← containers_of data
  let last_container ← pyIndex containers (-1)
  let rawItems ← pyDictGet last_container "items" (.arr [])
  items_by_id_of rawItems

/-- A successful export run with content yields its blocks from
`collect_blocks` on the built index, and its spaces from
`resolved_spaces_of`. -/
theorem export_core_some_inv {data : JVal} {p : List SpaceInfo × List SpaceBlock}
    (h : export_core data = .ok (some p)) :
    resolved_spaces_of data = .ok p.1 ∧ p.1 ≠ [] ∧
      ∃ d, items_by_id_of_from data = .ok d ∧ collect_blocks d p.1 = .ok p.2 := by
  simp only [export_core] at h
  obtain ⟨containers, hc, h⟩ := bind_ok_inv h
  by_cases htr : pyTruthy containers = true
  · simp only [htr, Bool.not_true, Bool.false_eq_true, if_false] at h
    obtain ⟨lc, hlc, h⟩ := bind_ok_inv h
    obtain ⟨rawSpaces, hrs, h⟩ := bind_ok_inv h
    obtain ⟨spaceVals, hsv, h⟩ := bind_ok_inv h
    obtain ⟨spaces, hsp, h⟩ := bind_ok_inv h
    by_cases hne : spaces.isEmpty
    · simp [hne] at h
    · simp only [hne, Bool.false_eq_true, if_false] at h
      obtain ⟨rawItems, hri, h⟩ := bind_ok_inv h
      obtain ⟨d, hd, h⟩ := bind_ok_inv h
      obtain ⟨blocks, hb, h⟩ := bind_ok_inv h
      simp only [pure_eq_ok, Except.ok.injEq, Option.some.injEq] at h
      subst h
      refine ⟨?_, by simpa using hne, d, ?_, hb⟩
      · simp [resolved_spaces_of, hc, hlc, hrs, hsv, hsp]
      · simp [items_by_id_of_from, hc, htr, hlc, hri, hd]
  · simp only [Bool.not_eq_true] at htr
    simp [htr] at h



/-- In-range non-negative subscription of a list value. -/
theorem pyIndex_ofNat {xs : List JVal} {i : Nat} (h : i < xs.length) :
    pyIndex (.arr xs) ((i : Nat) : Int) = .ok (xs.get ⟨i, h⟩) := by
  have hneg : ¬(((i : Nat) : Int) < 0) := by omega
  simp only [pyIndex, hneg, if_false]
  rw [dif_pos (by constructor <;> omega)]
  simp

/-- Out-of-range non-negative subscription of a list value. -/
theorem pyIndex_ofNat_oob {xs : List JVal} {i : Nat} (h : xs.length ≤ i) :
    pyIndex (.arr xs) ((i : Nat) : Int) = .error .indexError := by
  have hneg : ¬(((i : Nat) : Int) < 0) := by omega
  simp only [pyIndex, hneg, if_false]
  rw [dif_neg (by omega)]

/-- Shifting the subscript by two skips the first two elements. -/
theorem pyIndex_cons2 (a b : JVal) (rest : List JVal) (i : Nat) :
    pyIndex (.arr (a :: b :: rest)) ((i + 2 : Nat) : Int)
      = pyIndex (.arr rest) ((i : Nat) : Int) := by
  by_cases h : i < rest.length
  · rw [pyIndex_ofNat (show i + 2 < (a :: b :: rest).length by
        simp only [List.length_cons]; omega),
      pyIndex_ofNat h]
    rfl
  · rw [pyIndex_ofNat_oob (show (a :: b :: rest).length ≤ i + 2 by
        simp only [List.length_cons]; omega),
      pyIndex_ofNat_oob (by omega)]

/-- The pair starts of a list extended by two elements at the front. -/
theorem pair_starts_succ2 (m : Nat) :
    pair_starts (m + 2) = 0 :: (pair_starts m).map (fun i => i + 2) := by
  simp only [pair_starts]
  have he : (m + 2 + 1) / 2 = (m + 1) / 2 + 1 := by omega
  rw [he, List.range_succ_eq_map]
  simp only [List.map_cons, Nat.mul_zero, List.map_map]
  congr 1

/-- One index-building step at shifted position, on the shifted list. -/
theorem build_index_step_shift (a b : JVal) (rest : List JVal) (d : PyDict) (i : Nat) :
    build_index_step (.arr (a :: b :: rest)) (rest.length + 2) d (i + 2)
      = build_index_step (.arr rest) rest.length d i := by
  simp only [build_index_step]
  by_cases h : i + 1 < rest.length
  · rw [if_pos (by omega), if_pos h]
    have : ((i + 2 + 1 : Nat) : Int) = ((i + 1 + 2 : Nat) : Int) := by omega
    rw [this, pyIndex_cons2 a b rest (i + 1)]
  · rw [if_neg (by omega), if_neg h]

/-- The index-building loop at shifted positions, on the shifted list. -/
theorem build_go_shift (a b : JVal) (rest : List JVal) :
    ∀ (idxs : List Nat) (d : PyDict),
      build_index_go (.arr (a :: b :: rest)) (rest.length + 2) (idxs.map (fun i => i + 2)) d
        = build_index_go (.arr rest) rest.length idxs d
  | [], d => by simp [build_index_go]
  | i :: restIdx, d => by
      simp only [List.map_cons, build_index_go, build_index_step_shift]
      cases hs : build_index_step (.arr rest) rest.length d i with
      | error e => simp
      | ok d2 =>
          simp only [ok_bind]
          exact build_go_shift a b rest restIdx d2

/-- The first index-building step of a two-or-more element list inspects
exactly the second element, inserting it when it is a structured record
with a hashable `id`. -/
theorem build_index_step_head (a b : JVal) (rest : List JVal) (d : PyDict)
    (hh : ∀ fs p, b = .obj fs → fs.find? (fun q => q.1 == "id") = some p →
      isHashable p.2 = true) :
    build_index_step (.arr (a :: b :: rest)) (rest.length + 2) d 0
      = .ok (index_spec_insert d b) := by
  simp only [build_index_step]
  rw [if_pos (by omega)]
  rw [show pyIndex (.arr (a :: b :: rest)) ((0 + 1 : Nat) : Int) = .ok b from
    (pyIndex_ofNat (by simp)).trans (by rfl)]
  simp only [ok_bind]
  cases b with
  | obj fs =>
      simp only [isDict, if_true, ok_bind, pyIn]
      cases hf : fs.find? (fun q => q.1 == "id") with
      | none =>
          have hany : fs.any (fun p => p.1 == "id") = false := by
            rw [List.any_eq_false]
            intro p hp
            rw [List.find?_eq_none] at hf
            simpa using hf p hp
          simp [hany, index_spec_insert, hf]
      | some p =>
          have hany : fs.any (fun q => q.1 == "id") = true := by
            rw [List.any_eq_true]
            refine ⟨p, List.mem_of_find?_eq_some hf, ?_⟩
            have := List.find?_some hf
            simpa using this
          have hkey : pyGetKey (.obj fs) "id" = .ok p.2 := by
            simp [pyGetKey, hf]
          simp only [hany, if_true, ok_bind, hkey, hh fs p rfl hf, if_true,
            index_spec_insert, hf, pure_eq_ok]
  | null => simp [isDict, index_spec_insert]
  | bool v => simp [isDict, index_spec_insert]
  | num v => simp [isDict, index_spec_insert]
  | str v => simp [isDict, index_spec_insert]
  | arr v => simp [isDict, index_spec_insert]

/-- The index-building loop computes the spec-side fold over the
odd-position elements, for any starting dictionary, provided every
inserted id value is hashable. -/
theorem build_go_spec : ∀ (xs : List JVal) (d : PyDict),
    (∀ v ∈ odd_elems xs, ∀ fs p, v = .obj fs →
      fs.find? (fun q => q.1 == "id") = some p → isHashable p.2 = true) →
    build_index_go (.arr xs) xs.length (pair_starts xs.length) d
      = .ok ((odd_elems xs).foldl index_spec_insert d)
  | [], d, _ => by simp [build_index_go, pair_starts, odd_elems]
  | [a], d, _ => by
      have h1 : pair_starts 1 = [0] := by simp [pair_starts, List.range_succ]
      simp only [List.length_cons, List.length_nil, h1, build_index_go, build_index_step,
        Nat.zero_add]
      rw [if_neg (by omega)]
      simp [build_index_go, odd_elems]
  | a :: b :: rest, d, hh => by
      have hlen : (a :: b :: rest).length = rest.length + 2 := by simp
      rw [hlen, pair_starts_succ2]
      simp only [build_index_go]
      rw [build_index_step_head a b rest d
        (fun fs p hb => hh b (by simp [odd_elems]) fs p hb)]
      simp only [ok_bind]
      rw [build_go_shift a b rest]
      have hrest : ∀ v ∈ odd_elems rest, ∀ fs p, v = .obj fs →
          fs.find? (fun q => q.1 == "id") = some p → isHashable p.2 = true := by
        intro v hv
        exact hh v (by simp [odd_elems, hv])
      rw [build_go_spec rest (index_spec_insert d b) hrest]
      simp [odd_elems]


@[simp] theorem ok_bindm {α β : Type} (a : α) (f : α → Except PyErr β) :
    (Except.ok a : Except PyErr α).bind f = f a := rfl

@[simp] theorem error_bindm {α β : Type} (e : PyErr) (f : α → Except PyErr β) :
    (Except.error e : Except PyErr α).bind f = .error e := rfl

/-! Concrete documents used by counterexamples and witnesses. -/

/-- The scenario of spec section 8: one space `Work` whose pinned container
`p1` holds a folder `Docs` with tabs `A`, `B` and a standalone tab `C`. -/
def scen8doc : JVal :=
  .obj [("sidebar", .obj [("containers", .arr [
    .obj [
      ("spaces", .arr [
        .obj [("title", .str "Work"), ("id", .str "s1"),
              ("containerIDs", .arr [.str "pinned", .str "p1"])]]),
      ("items", .arr [
        .null,
        .obj [("id", .str "f1"), ("parentID", .str "p1"), ("title", .str "Docs"),
              ("childrenIds", .arr [.str "a1", .str "b1"]),
              ("data", .obj [("list", .obj [])])],
        .null,
        .obj [("id", .str "a1"), ("parentID", .str "f1"), ("title", .str "A"),
              ("data", .obj [("tab", .obj [("savedURL", .str "http://a")])])],
        .null,
        .obj [("id", .str "b1"), ("parentID", .str "f1"), ("title", .str "B"),
              ("data", .obj [("tab", .obj [("savedURL", .str "http://b")])])],
        .null,
        .obj [("id", .str "c1"), ("parentID", .str "p1"), ("title", .str "C"),
              ("data", .obj [("tab", .obj [("savedURL", .str "http://c")])])]
      ])]])])]

/-- Two spaces: `Work` with pinned content, `Empty` without a `"pinned"`
marker and without matching items. -/
def c1doc : JVal :=
  .obj [("sidebar", .obj [("containers", .arr [
    .obj [
      ("spaces", .arr [
        .obj [("title", .str "Work"), ("id", .str "s1"),
              ("containerIDs", .arr [.str "pinned", .str "p1"])],
        .obj [("title", .str "Empty"), ("id", .str "s2"),
              ("containerIDs", .arr [])]]),
      ("items", .arr [
        .null,
        .obj [("id", .str "t1"), ("parentID", .str "p1"), ("title", .str "A"),
              ("data", .obj [("tab", .obj [("savedURL", .str "http://a")])])]
      ])]])])]

/-- One space without a `"pinned"` marker, and one item that has no
`parentID` at all. -/
def c2doc : JVal :=
  .obj [("sidebar", .obj [("containers", .arr [
    .obj [
      ("spaces", .arr [
        .obj [("title", .str "S"), ("id", .str "s1"), ("containerIDs", .arr [])]]),
      ("items", .arr [
        .null,
        .obj [("id", .str "t1"),
              ("data", .obj [("tab", .obj [("savedURL", .str "http://a")])])]
      ])]])])]

/-- A document whose single space record has a `title` but no `id`. -/
def c9doc : JVal :=
  .obj [("sidebar", .obj [("containers", .arr [
    .obj [("spaces", .arr [.obj [("title", .str "X")]])]])])]

/-- A flat items array whose odd-position element is a structured record
whose `id` value is a list (unhashable in Python). -/
def c3badItems : List JVal := [.null, .obj [("id", .arr [])]]

/-- A well-behaved flat items array for the C3 witness. -/
def c3goodItems : List JVal :=
  [.null, .obj [("id", .str "a"), ("title", .str "T")], .null, .num 5]

/-- A three-item index: folder `r` (no direct tabs) containing folder `c`
which holds one tab `t`. -/
def c6idx : PyDict :=
  [(.str "r", .obj [("id", .str "r"), ("title", .str "R"),
      ("childrenIds", .arr [.str "c"]), ("data", .obj [("list", .obj [])])]),
   (.str "c", .obj [("id", .str "c"), ("title", .str "C"),
      ("childrenIds", .arr [.str "t"]), ("data", .obj [("list", .obj [])])]),
   (.str "t", .obj [("id", .str "t"), ("title", .str "T"),
      ("data", .obj [("tab", .obj [("savedURL", .str "http://t")])])])]


/-- Left cancellation for string append. -/
theorem str_cancel_left (p : String) {x y : String} (h : p ++ x = p ++ y) : x = y := by
  have hd := congrArg String.data h
  rw [String.data_append p x, String.data_append p y] at hd
  exact String.ext (List.append_cancel_left hd)

/-- Right cancellation for string append. -/
theorem str_cancel_right (s : String) {x y : String} (h : x ++ s = y ++ s) : x = y := by
  have hd := congrArg String.data h
  rw [String.data_append x s, String.data_append y s] at hd
  exact String.ext (List.append_cancel_right hd)

/-- Joining the header lines over the same body is injective in the
timestamp. -/
theorem join_header_lines_inj {n1 n2 : String} (rest : List String)
    (h : join_lines (header_lines n1 ++ rest) = join_lines (header_lines n2 ++ rest)) :
    n1 = n2 := by
  simp only [header_lines, List.cons_append, join_lines] at h
  have h2 := str_cancel_left _ h
  have h3 := str_cancel_left _ h2
  have h4 := str_cancel_right _ (str_cancel_right _ h3)
  have h5 := str_cancel_left "<!-- Export date: " (str_cancel_right " -->" h4)
  exact h5

/-! Claim theorems. -/

/-- Claim C2 (code bug evaluation): a space whose `containerIDs` holds no
`"pinned"` marker keeps `pinned_container = None`, and `item.get('parentID')
== None` then matches every item without a `parentID`, so the space is
emitted with that item instead of contributing zero items: on `c2doc` the
export returns one block for space `S` holding one standalone bookmark. -/
theorem c2_unpinned_space_gets_parentless_items :
    export_core c2doc =
      .ok (some ([⟨.str "s1", .str "S", .null⟩],
                 [⟨.str "S", [], [⟨.str "Untitled", .str "http://a"⟩]⟩])) ∧
    (∃ r, export_bookmarks c2doc "T" = .ok (some r) ∧ r.bookmarks = 1 ∧ r.folders = 0) :=
  ⟨rfl, _, rfl, rfl, rfl⟩

/-- Claim C3 (counterexample): an odd-position element that is a structured
record containing an `id` field is not always inserted without error — if
the `id` value is a list, the Python dictionary assignment raises
TypeError.  The record does contain an `id` field (second conjunct). -/
theorem c3_unhashable_id_raises :
    items_by_id_of (.arr c3badItems) = .error .typeError ∧
    pyIn "id" (.obj [("id", .arr [])]) = .ok true :=
  ⟨rfl, rfl⟩

/-- Claim C3 (amended): the index is built by pairing the flat items array
in twos — index 2k ignored, index 2k+1 inserted keyed by its `id` exactly
when it is a structured record containing an `id` field — provided every
such `id` value is hashable (otherwise the insertion raises TypeError);
other elements are skipped without error, and an empty or absent items
array yields an empty index. -/
theorem c3_index_pairing :
    (∀ xs : List JVal,
      (∀ v ∈ odd_elems xs, ∀ fs p, v = .obj fs →
        fs.find? (fun q => q.1 == "id") = some p → isHashable p.2 = true) →
      items_by_id_of (.arr xs) = .ok (index_spec xs)) ∧
    items_by_id_of (.arr []) = .ok [] ∧
    pyDictGet (.obj []) "items" (.arr []) = .ok (.arr []) := by
  refine ⟨?_, rfl, rfl⟩
  intro xs hh
  simp only [items_by_id_of, pyLen, ok_bind]
  rw [build_go_spec xs [] hh]
  rfl

/-- Claim C3 (witness): the amended pairing theorem applied to a concrete
array with one insertable record, one ignored even-position element, and
one non-record odd element. -/
theorem c3_index_pairing_witness :
    items_by_id_of (.arr c3goodItems) = .ok (index_spec c3goodItems) := by
  refine c3_index_pairing.1 c3goodItems ?_
  intro v hv fs p hobj hf
  simp only [c3goodItems, odd_elems, List.mem_cons, List.not_mem_nil, or_false] at hv
  rcases hv with rfl | rfl
  · cases hobj
    rw [show List.find? (fun q => q.1 == "id") [("id", JVal.str "a"), ("title", JVal.str "T")]
      = some ("id", JVal.str "a") from rfl] at hf
    cases hf
    rfl
  · cases hobj

/-- Claim C4 (counterexample): the classifier does not return a
classification for every item record — when the `data` field is `null`,
Python's `'list' in item['data']` raises TypeError instead of returning
`unknown`. -/
theorem c4_data_null_raises :
    get_item_type (.obj [("data", .null)]) = .error .typeError := rfl

/-- Claim C4 (amended): for every item record whose `data` field, when
present, is a structured record, the classifier returns exactly one of
{folder, tab, unknown}: `folder` when `data` contains a `list` key, `tab`
when `data` contains a `tab` key and no `list` key, and `unknown` (`none`)
otherwise — including when `data` itself is missing.  It is a pure
function by construction. -/
theorem c4_classifier (fs ds : List (String × JVal)) :
    (pyIn "data" (.obj fs) = .ok false → get_item_type (.obj fs) = .ok none) ∧
    (pyGetKey (.obj fs) "data" = .ok (.obj ds) →
      get_item_type (.obj fs) =
        .ok (if ds.any (fun q => q.1 == "list") then some ItemType.folder
             else if ds.any (fun q => q.1 == "tab") then some ItemType.tab
             else none)) := by
  constructor
  · intro h
    simp only [pyIn, Except.ok.injEq] at h
    simp [get_item_type, pyIn, h]
  · intro h
    simp only [pyGetKey] at h
    cases hf : fs.find? (fun q => q.1 == "data") with
    | none => rw [hf] at h; cases h
    | some q =>
    rw [hf] at h
    injection h with h2
    have hany : fs.any (fun r => r.1 == "data") = true := by
      rw [List.any_eq_true]
      refine ⟨q, List.mem_of_find?_eq_some hf, ?_⟩
      have := List.find?_some hf
      simpa using this
    simp only [get_item_type, pyIn, hany, ok_bind, Bool.not_true, Bool.false_eq_true, if_false,
      pyGetKey, hf, h2, ok_bind]
    by_cases hl : ds.any (fun q => q.1 == "list") = true
    · simp [hl]
    · simp only [Bool.not_eq_true] at hl
      by_cases ht : ds.any (fun q => q.1 == "tab") = true
      · simp [hl, ht]
      · simp only [Bool.not_eq_true] at ht
        simp [hl, ht]

/-- Claim C4 (witness): the amended classifier theorem applied to a record
whose `data` holds a `tab` key. -/
theorem c4_classifier_witness :
    pyGetKey (.obj [("data", .obj [("tab", .null)])]) "data" = .ok (.obj [("tab", .null)]) ∧
    get_item_type (.obj [("data", .obj [("tab", .null)])]) =
      .ok (if [("tab", (JVal.null))].any (fun q => q.1 == "list") then some ItemType.folder
           else if [("tab", (JVal.null))].any (fun q => q.1 == "tab") then some ItemType.tab
           else none) :=
  ⟨rfl, (c4_classifier [("data", .obj [("tab", .null)])] [("tab", .null)]).2 rfl⟩


/-- Claim C1 (counterexample): the returned spaces counter is the number of
resolved spaces, not the number of spaces emitted with content — on
`c1doc` the result reports `spaces = 2` while only one space block is
emitted. -/
theorem c1_spaces_counter_counterexample :
    ∃ r sp bl, export_bookmarks c1doc "T" = .ok (some r) ∧
      export_core c1doc = .ok (some (sp, bl)) ∧ r.spaces = 2 ∧ bl.length = 1 :=
  ⟨_, _, _, rfl, rfl, rfl, rfl⟩

/-- Claim C1 (amended): the spaces counter returned by `export_bookmarks`
equals the number of resolved spaces (structured space records with a
title in the last container), whether or not they contributed content;
the folder and bookmark counters come from the emitted blocks; and on the
section 8 scenario the returned counts are exactly
{spaces 1, folders 1, bookmarks 3} for every timestamp. -/
theorem c1_spaces_counter :
    (∀ (data : JVal) (now : String) (r : ExportResult),
      export_bookmarks data now = .ok (some r) →
      ∃ sp bl, export_core data = .ok (some (sp, bl)) ∧ r.spaces = sp.length ∧
        r.folders = total_folders bl ∧ r.bookmarks = total_bookmarks bl) ∧
    (∀ now : String, ∃ r, export_bookmarks scen8doc now = .ok (some r) ∧
      r.spaces = 1 ∧ r.folders = 1 ∧ r.bookmarks = 3) := by
  constructor
  · intro data now r h
    simp only [export_bookmarks] at h
    cases hc : export_core data with
    | error e => rw [hc] at h; cases h
    | ok oc =>
        rw [hc] at h
        cases oc with
        | none => cases h
        | some p =>
            obtain ⟨sp, bl⟩ := p
            simp only [ok_bindm, Except.ok.injEq, Option.some.injEq] at h
            subst h
            exact ⟨sp, bl, rfl, rfl, rfl, rfl⟩
  · intro now
    exact ⟨_, rfl, rfl, rfl, rfl⟩

/-- Claim C1 (witness): the amended counter theorem applied to the section
8 scenario document at a fixed timestamp. -/
theorem c1_spaces_counter_witness :
    ∃ r, export_bookmarks scen8doc "T" = .ok (some r) ∧
      ∃ sp bl, export_core scen8doc = .ok (some (sp, bl)) ∧ r.spaces = sp.length ∧
        r.folders = total_folders bl ∧ r.bookmarks = total_bookmarks bl :=
  ⟨_, rfl, c1_spaces_counter.1 scen8doc "T" _ rfl⟩

/-- Claim C5: no bookmark entry with an empty or absent URL appears in a
flattened folder or in the emitted content, and since the bookmark counter
counts exactly the emitted entries, such entries are never counted: every
tab of every folder returned by `get_folder_with_direct_tabs`, and every
entry of every emitted space block, has a Python-truthy `savedURL` (in
particular not the empty string and not an absent/`None` value). -/
theorem c5_no_empty_urls :
    (∀ (item_id : JVal) (d : PyDict) (fo : Option FlatFolder) (f : FlatFolder),
      get_folder_with_direct_tabs item_id d = .ok fo → fo = some f →
      ∀ t ∈ f.tabs, pyTruthy t.url = true ∧ t.url ≠ .str "" ∧ t.url ≠ .null) ∧
    (∀ (data : JVal) (p : List SpaceInfo × List SpaceBlock),
      export_core data = .ok (some p) →
      ∀ b ∈ p.2,
        (∀ f ∈ b.folders, ∀ t ∈ f.tabs,
          pyTruthy t.url = true ∧ t.url ≠ .str "" ∧ t.url ≠ .null) ∧
        (∀ t ∈ b.standalone,
          pyTruthy t.url = true ∧ t.url ≠ .str "" ∧ t.url ≠ .null)) := by
  constructor
  · intro item_id d fo f h hf t ht
    have := gfwdt_ok h f hf t ht
    exact ⟨this, pyTruthy_ne this⟩
  · intro data p h b hb
    obtain ⟨-, -, d, -, hblocks⟩ := export_core_some_inv h
    obtain ⟨hfo, hta⟩ := collect_blocks_ok p.1 d p.2 hblocks b hb
    constructor
    · intro f hf t ht
      have := hfo f hf t ht
      exact ⟨this, pyTruthy_ne this⟩
    · intro t ht
      have := hta t ht
      exact ⟨this, pyTruthy_ne this⟩

/-- Claim C5 (witness): the invariant applied to the section 8 scenario
(and to its `Docs` folder). -/
theorem c5_no_empty_urls_witness :
    ∃ p, export_core scen8doc = .ok (some p) ∧
      ∀ b ∈ p.2,
        (∀ f ∈ b.folders, ∀ t ∈ f.tabs,
          pyTruthy t.url = true ∧ t.url ≠ .str "" ∧ t.url ≠ .null) ∧
        (∀ t ∈ b.standalone,
          pyTruthy t.url = true ∧ t.url ≠ .str "" ∧ t.url ≠ .null) :=
  ⟨_, rfl, c5_no_empty_urls.2 scen8doc _ rfl⟩

/-- Claim C6: a folder appears in the flattened sequence exactly when it
has at least one kept direct tab (the flattening equals the unfiltered
pre-order walk filtered to folders with non-empty kept-tab lists, so a
folder with zero kept tabs is dropped while its non-empty descendants
still appear); membership form included. -/
theorem c6_folder_kept_iff_nonempty :
    (∀ (fuel : Nat) (item_id : JVal) (d : PyDict),
      get_all_folders_flat fuel item_id d []
        = (walk_folders fuel item_id d).map (List.filter (fun f => !f.tabs.isEmpty))) ∧
    (∀ (fuel : Nat) (item_id : JVal) (d : PyDict) (L W : List FlatFolder),
      get_all_folders_flat fuel item_id d [] = .ok L →
      walk_folders fuel item_id d = .ok W →
      ∀ f, f ∈ L ↔ f ∈ W ∧ f.tabs ≠ []) := by
  have key : ∀ (fuel : Nat) (item_id : JVal) (d : PyDict),
      get_all_folders_flat fuel item_id d []
        = (walk_folders fuel item_id d).map (List.filter (fun f => !f.tabs.isEmpty)) := by
    intro fuel item_id d
    rw [gaff_eq_spec, gaff_spec_eq_walk]
    cases walk_folders fuel item_id d with
    | error e => rfl
    | ok W => simp
  refine ⟨key, ?_⟩
  intro fuel item_id d L W hL hW f
  rw [key fuel item_id d, hW] at hL
  simp only [ok_map, Except.ok.injEq] at hL
  subst hL
  rw [List.mem_filter]
  simp [List.isEmpty_iff]

/-- Claim C6 (witness): in the index `c6idx`, the root folder `R` has no
direct tabs and is dropped, while its descendant `C` (with one kept tab)
still appears. -/
theorem c6_folder_kept_iff_nonempty_witness :
    ∃ L W, get_all_folders_flat 4 (.str "r") c6idx [] = .ok L ∧
      walk_folders 4 (.str "r") c6idx = .ok W ∧
      (∀ f, f ∈ L ↔ f ∈ W ∧ f.tabs ≠ []) ∧ L.length = 1 ∧ W.length = 2 :=
  ⟨_, _, rfl, rfl, c6_folder_kept_iff_nonempty.2 4 (.str "r") c6idx _ _ rfl rfl, rfl, rfl⟩

/-- Claim C7: the flattened list is depth-first pre-order, folder first —
the source's accumulator-threading recursion equals the spec-side
`gaff_spec`, which emits the current folder's entry (when it has kept
tabs) before the concatenated flattenings of its folder children taken in
`childrenIds` order. -/
theorem c7_preorder_folder_first :
    ∀ (fuel : Nat) (item_id : JVal) (d : PyDict) (acc : List FlatFolder),
      get_all_folders_flat fuel item_id d acc
        = (gaff_spec fuel item_id d).map (fun L => acc ++ L) :=
  gaff_eq_spec

/-- A single-folder index whose folder `r` lists itself as its own child:
the Python recursion diverges on it. -/
def cycd : PyDict :=
  [(.str "r", .obj [("id", .str "r"), ("title", .str "R"),
      ("childrenIds", .arr [.str "r"]), ("data", .obj [("list", .obj [])])])]

/-- Claim C8: under an acyclic (well-founded) child relation the recursion
terminates — beyond some fuel bound the embedding's result no longer
depends on the fuel AND is never the out-of-fuel sentinel, so the
recursion genuinely finishes.  Cyclic input is the unbounded-execution
risk and is not guarded against: on the concrete self-looping index
`cycd` the run is out-of-fuel at every fuel (the Python original
diverges), and `recChild` there relates `r` to itself, so the
well-foundedness hypothesis genuinely fails on it. -/
theorem c8_termination_on_acyclic :
    (∀ d : PyDict, WellFounded (fun b a => recChild d a b) →
      ∀ (item_id : JVal) (acc : List FlatFolder),
        ∃ N, ∀ fuel, N ≤ fuel →
          get_all_folders_flat fuel item_id d acc = get_all_folders_flat N item_id d acc ∧
          get_all_folders_flat fuel item_id d acc ≠ .error .outOfFuel) ∧
    (∀ (fuel : Nat) (acc : List FlatFolder),
      get_all_folders_flat fuel (.str "r") cycd acc = .error .outOfFuel) ∧
    recChild cycd (.str "r") (.str "r") := by
  refine ⟨?_, ?_, ?_⟩
  · intro d hwf item_id acc
    obtain ⟨N, hN, hNo⟩ := gaff_spec_stbT d hwf item_id
    refine ⟨N, fun fuel hf => ⟨?_, ?_⟩⟩
    · have h2 := hN fuel hf
      simp only [] at h2
      rw [gaff_eq_spec, gaff_eq_spec, h2]
    · rw [gaff_eq_spec]
      have h2 := hN fuel hf
      simp only [] at h2
      rw [h2]
      simp only [] at hNo
      intro hmap
      cases he : gaff_spec N item_id d with
      | error e =>
          rw [he] at hmap
          simp only [error_map, Except.error.injEq] at hmap
          subst hmap
          exact hNo he
      | ok L =>
          rw [he] at hmap
          simp at hmap
  · have hstep : ∀ (fuel : Nat) (acc : List FlatFolder),
        get_all_folders_flat (fuel + 1) (.str "r") cycd acc
          = (get_all_folders_flat fuel (.str "r") cycd acc) >>= (fun c2 => .ok c2) :=
      fun _ _ => rfl
    intro fuel
    induction fuel with
    | zero => intro acc; rfl
    | succ n ih =>
        intro acc
        rw [hstep n acc, ih acc]
        rfl
  · exact ⟨rfl, rfl, _, _, _, rfl, rfl, rfl, List.mem_singleton.mpr rfl, rfl, rfl⟩

/-- The empty index has no recursion steps at all. -/
theorem recChild_empty (a b : JVal) : ¬ recChild [] a b := by
  intro h
  obtain ⟨h1, -⟩ := h
  unfold pyDictHas at h1
  by_cases hh : isHashable a = true
  · rw [if_pos hh] at h1
    simp [dictFind] at h1
  · rw [if_neg hh] at h1
    cases h1

/-- Claim C8 (witness): the termination theorem applied to the empty
index, whose child relation is vacuously well-founded. -/
theorem c8_termination_on_acyclic_witness :
    ∃ N, ∀ fuel, N ≤ fuel →
      get_all_folders_flat fuel (.str "x") [] [] = get_all_folders_flat N (.str "x") [] [] ∧
      get_all_folders_flat fuel (.str "x") [] [] ≠ .error .outOfFuel :=
  c8_termination_on_acyclic.1 []
    (WellFounded.intro (fun a => Acc.intro a (fun y hy => absurd hy (recChild_empty a y))))
    (.str "x") []


/-- Claim C9 (counterexample): the export can also fail with a raised
error when containers and a titled space record are present — a space
record with a `title` but no `id` raises KeyError at `space['id']`, so
"fails iff no containers or no spaces" is too strong. -/
theorem c9_space_without_id_raises :
    export_bookmarks c9doc "T" = .error .keyError ∧
    (∃ cs, containers_of c9doc = .ok cs ∧ pyTruthy cs = true) ∧
    pyIn "title" (.obj [("title", .str "X")]) = .ok true :=
  ⟨rfl, ⟨_, rfl, rfl⟩, rfl⟩

/-- Claim C9 (amended): among non-raising outcomes the claim is exact —
`export_bookmarks` returns `None` if and only if the containers value is
falsy (no containers) or the last container yields no structured space
records with a title; structurally malformed documents (such as a space
record with a title but no id) instead raise an error, which also aborts
the export with no output. -/
theorem c9_none_iff_no_containers_or_spaces (data : JVal) (now : String) :
    export_bookmarks data now = .ok none ↔
      ((∃ cs, containers_of data = .ok cs ∧ pyTruthy cs = false) ∨
       ((∃ cs, containers_of data = .ok cs ∧ pyTruthy cs = true) ∧
         resolved_spaces_of data = .ok [])) := by
  have hcore : (export_bookmarks data now = .ok none) ↔ (export_core data = .ok none) := by
    simp only [export_bookmarks]
    cases hc : export_core data with
    | error e => simp
    | ok oc =>
        cases oc with
        | none => simp
        | some p =>
            obtain ⟨sp, bl⟩ := p
            simp
  rw [hcore]
  constructor
  · intro h
    simp only [export_core] at h
    obtain ⟨cs, hcs, h⟩ := bind_ok_inv h
    by_cases htr : pyTruthy cs = true
    · right
      refine ⟨⟨cs, hcs, htr⟩, ?_⟩
      simp only [htr, Bool.not_true, Bool.false_eq_true, if_false] at h
      obtain ⟨lc, hlc, h⟩ := bind_ok_inv h
      obtain ⟨rawSpaces, hrs, h⟩ := bind_ok_inv h
      obtain ⟨spaceVals, hsv, h⟩ := bind_ok_inv h
      obtain ⟨spaces, hsp, h⟩ := bind_ok_inv h
      by_cases hne : spaces.isEmpty
      · have he : spaces = [] := List.isEmpty_iff.mp hne
        subst he
        simp [resolved_spaces_of, hcs, hlc, hrs, hsv, hsp]
      · simp only [hne, Bool.false_eq_true, if_false] at h
        obtain ⟨rawItems, hri, h⟩ := bind_ok_inv h
        obtain ⟨d, hd, h⟩ := bind_ok_inv h
        obtain ⟨blocks, hb, h⟩ := bind_ok_inv h
        simp at h
    · left
      exact ⟨cs, hcs, by simpa using htr⟩
  · intro h
    rcases h with ⟨cs, hcs, hfalse⟩ | ⟨⟨cs, hcs, htrue⟩, hrsp⟩
    · simp [export_core, hcs, hfalse]
    · simp only [resolved_spaces_of] at hrsp
      obtain ⟨cs2, hcs2, hrsp⟩ := bind_ok_inv hrsp
      rw [hcs] at hcs2
      injection hcs2 with he
      subst he
      obtain ⟨lc, hlc, hrsp⟩ := bind_ok_inv hrsp
      obtain ⟨rawSpaces, hrs, hrsp⟩ := bind_ok_inv hrsp
      obtain ⟨spaceVals, hsv, hrsp⟩ := bind_ok_inv hrsp
      simp [export_core, hcs, htrue, hlc, hrs, hsv, hrsp]

/-- Claim C10: the export is deterministic except for the timestamp — for
two runs on the same document the three counters agree, the emitted line
lists agree everywhere except index 2 (the export-date comment, which
embeds the timestamp), and runs with different timestamps produce
different documents, so the output text is not a pure function of the
input document. -/
theorem c10_deterministic_except_timestamp :
    ∀ (data : JVal) (n1 n2 : String) (r1 r2 : ExportResult),
      export_bookmarks data n1 = .ok (some r1) →
      export_bookmarks data n2 = .ok (some r2) →
      r1.folders = r2.folders ∧ r1.bookmarks = r2.bookmarks ∧ r1.spaces = r2.spaces ∧
      ∃ l1 l2, export_lines data n1 = .ok (some l1) ∧ export_lines data n2 = .ok (some l2) ∧
        r1.html = join_lines l1 ∧ r2.html = join_lines l2 ∧
        l1.length = l2.length ∧
        (∀ i, i ≠ 2 → l1.get? i = l2.get? i) ∧
        l1.get? 2 = some ("<!-- Export date: " ++ n1 ++ " -->") ∧
        l2.get? 2 = some ("<!-- Export date: " ++ n2 ++ " -->") ∧
        (n1 ≠ n2 → r1.html ≠ r2.html) := by
  intro data n1 n2 r1 r2 h1 h2
  simp only [export_bookmarks] at h1 h2
  cases hc : export_core data with
  | error e => rw [hc] at h1; cases h1
  | ok oc =>
      rw [hc] at h1 h2
      cases oc with
      | none => cases h1
      | some p =>
          obtain ⟨sp, bl⟩ := p
          simp only [ok_bindm, Except.ok.injEq, Option.some.injEq] at h1 h2
          subst h1
          subst h2
          refine ⟨rfl, rfl, rfl, header_lines n1 ++ body_lines bl ++ ["</DL><p>"],
            header_lines n2 ++ body_lines bl ++ ["</DL><p>"], ?_, ?_, rfl, rfl, ?_, ?_, ?_, ?_, ?_⟩
          · simp [export_lines, hc]
          · simp [export_lines, hc]
          · simp [header_lines]
          · intro i hi
            by_cases h7 : i < 7
            · interval_cases i
              · rfl
              · rfl
              · exact absurd rfl hi
              · rfl
              · rfl
              · rfl
              · rfl
            · obtain ⟨j, rfl⟩ : ∃ j, i = j + 7 := ⟨i - 7, by omega⟩
              rfl
          · rfl
          · rfl
          · intro hne heq
            apply hne
            simp only [List.append_assoc] at heq
            exact join_header_lines_inj _ heq

/-- Claim C10 (witness): two runs on the section 8 scenario with
timestamps "A" and "B" agree on counts and differ as documents. -/
theorem c10_deterministic_except_timestamp_witness :
    ∃ r1 r2, export_bookmarks scen8doc "A" = .ok (some r1) ∧
      export_bookmarks scen8doc "B" = .ok (some r2) ∧
      r1.bookmarks = r2.bookmarks ∧ r1.html ≠ r2.html := by
  refine ⟨_, _, rfl, rfl, ?_, ?_⟩
  · exact (c10_deterministic_except_timestamp scen8doc "A" "B" _ _ rfl rfl).2.1
  · have h := c10_deterministic_except_timestamp scen8doc "A" "B" _ _ rfl rfl
    obtain ⟨-, -, -, l1, l2, -, -, -, -, -, -, -, -, hne⟩ := h
    exact hne (by decide)

end Arc
